import Mathlib

/-!
# obs-playout: schedule index, trigger resolver and execution loop

A shallow embedding of `src/src/time-trigger.{h,cpp}`, `src/src/playlist-manager.{h,cpp}`,
`src/src/scheduler-core.{h,cpp}` and the parts of `src/src/utils/config.{h,cpp}` they use.

Conventions of the embedding.

* `std::string` is `String`; parsing works on its character list.
* C++ `int` is `Int`; truncating division is `Int.tdiv` / `Int.tmod`.
* `std::map<K, V>` is an association list kept in strictly ascending key order
  (the iteration order of the map); `m[k]` is an ordered insert-or-update.
* The wall clock (`std::time` + `std::localtime`) and the steady clock are inputs:
  every operation receives the reading it makes. All reads made during one call
  observe the same reading.
* `std::lock_guard` acquisitions are not part of the functional model below.
* Calls to the media controller and the log lines that tell the branches of
  `execute_scheduled_item` apart are recorded, in order, in a trace.
-/

namespace ObsPlayout

/-! ## Strings and `std::stoi` -/

/-- The C locale `isspace`: space, `\t`, `\n`, `\v`, `\f`, `\r`. -/
def isspace (c : Char) : Bool :=
  c.toNat = 32 || (9 ≤ c.toNat && c.toNat ≤ 13)

/-- The C locale `isdigit`. -/
def isdigit (c : Char) : Bool :=
  48 ≤ c.toNat && c.toNat ≤ 57

/-- Value of a run of decimal digits, most significant first. -/
def digits_value (ds : List Char) : Nat :=
  ds.foldl (fun acc c => acc * 10 + (c.toNat - 48)) 0

/-- The function `std::stoi(str)` (base 10): skips leading white space, reads an optional sign
and the longest run of digits, ignores what follows. `none` stands for a thrown
`std::invalid_argument` (no digit) or `std::out_of_range` (value outside `int`). -/
def stoi (str : List Char) : Option Int :=
  let s := str.dropWhile isspace
  let neg : Bool := match s with
    | c :: _ => c = '-'
    | [] => false
  let s := match s with
    | c :: rest => if c = '-' ∨ c = '+' then rest else c :: rest
    | [] => []
  let ds := s.takeWhile isdigit
  if ds.isEmpty then none
  else
    let v : Int := if neg then -(digits_value ds : Int) else (digits_value ds : Int)
    if v < -2147483648 ∨ v > 2147483647 then none else some v

/-- Position of the first `c` in the string, `none` for `std::string::npos`. -/
def find_char (c : Char) : List Char → Option Nat
  | [] => none
  | x :: xs => if x = c then some 0 else (find_char c xs).map (· + 1)

/-- Source: `TimeTrigger::time_string_to_minutes` (time-trigger.cpp:254-277). -/
def time_string_to_minutes (time_str : String) : Int :=
  match find_char ':' time_str.data with
  | none => -1
  | some colon_pos =>
    let hour_str := time_str.data.take colon_pos
    let minute_str := time_str.data.drop (colon_pos + 1)
    match stoi hour_str, stoi minute_str with
    | some hour, some minute =>
      if hour < 0 ∨ hour > 23 ∨ minute < 0 ∨ minute > 59 then -1
      else hour * 60 + minute
    | _, _ => -1

/-! ## `std::map` as a key-sorted association list -/

/-- Assignment `m[k] = v` on a `std::map`: ordered insert, or overwrite of an existing key. -/
def map_insert {κ α : Type} [LT κ] [DecidableRel (fun a b : κ => a < b)] [DecidableEq κ]
    (k : κ) (v : α) : List (κ × α) → List (κ × α)
  | [] => [(k, v)]
  | (k', v') :: rest =>
    if k < k' then (k, v) :: (k', v') :: rest
    else if k = k' then (k, v) :: rest
    else (k', v') :: map_insert k v rest

/-- Lookup `m.find(k)` on a `std::map`: `none` for `end()`. -/
def map_find {κ α : Type} [DecidableEq κ] (k : κ) : List (κ × α) → Option α
  | [] => none
  | (k', v') :: rest => if k = k' then some v' else map_find k rest

/-- Removal `m.erase(k)` on a `std::map`. -/
def map_erase {κ α : Type} [DecidableEq κ] (k : κ) (m : List (κ × α)) : List (κ × α) :=
  m.filter (fun p => decide (p.1 ≠ k))

/-- The statement `m[k].push_back(x)` on a `std::map<int, std::vector<std::string>>`: the entry
is created empty when the key is new. -/
def map_push_back (k : Int) (x : String) : List (Int × List String) → List (Int × List String)
  | [] => [(k, [x])]
  | (k', xs) :: rest =>
    if k < k' then (k, [x]) :: (k', xs) :: rest
    else if k = k' then (k', xs ++ [x]) :: rest
    else (k', xs) :: map_push_back k x rest

/-! ## Data model -/

/-- Source: `struct ScheduledItem` (playlist-manager.h:13-26). -/
structure ScheduledItem where
  id : String
  name : String
  time : String
  source : String
  file_path : String
  duration : Int
  loop : Bool
  scene : String
  days : List String
  deriving DecidableEq, Repr

/-- Source: `struct Playlist` (playlist-manager.h:28-36). -/
structure Playlist where
  name : String
  id : String
  days : List String
  items : List ScheduledItem
  enabled : Bool
  deriving DecidableEq, Repr

/-- Source: `struct TimeSlot` (time-trigger.h:11-32), without `to_string`. -/
structure TimeSlot where
  hour : Int
  minute : Int
  item_ids : List String
  deriving DecidableEq, Repr

/-- Source: `TimeSlot::operator<`. -/
def TimeSlot.lt (a b : TimeSlot) : Prop :=
  if a.hour ≠ b.hour then a.hour < b.hour else a.minute < b.minute

instance : DecidableRel TimeSlot.lt := fun a b => by
  unfold TimeSlot.lt; exact inferInstance

/-- Source: `TimeSlot::to_minutes`. -/
def TimeSlot.to_minutes (s : TimeSlot) : Int :=
  s.hour * 60 + s.minute

/-- The fields of `struct tm` that the program reads after `std::localtime`. -/
structure Tm where
  tm_wday : Fin 7
  tm_hour : Fin 24
  tm_min : Fin 60
  deriving DecidableEq, Repr

/-- The table `days` of `get_current_day` (time-trigger.cpp:119). -/
def day_names : List String :=
  ["sunday", "monday", "tuesday", "wednesday", "thursday", "friday", "saturday"]

/-- Source: `TimeTrigger::get_current_day` (time-trigger.cpp:115-121), on the clock reading. -/
def get_current_day (now : Tm) : String :=
  day_names.getD now.tm_wday.val ""

/-- Source: `TimeTrigger::get_current_minutes` (time-trigger.cpp:123-127), on the clock reading. -/
def get_current_minutes (now : Tm) : Int :=
  (now.tm_hour.val : Int) * 60 + (now.tm_min.val : Int)

/-- Source: the data members of `class PlaylistManager` (playlist-manager.h:70-74). -/
structure PlaylistManager where
  playlists_ : List (String × Playlist)
  items_ : List (String × ScheduledItem)
  file_to_playlist_id_ : List (String × String)
  default_idle_content_ : String
  deriving DecidableEq, Repr

/-- Source: `PlaylistManager::get_items_for_day` (playlist-manager.cpp:215-230). -/
def PlaylistManager.get_items_for_day (pm : PlaylistManager) (day : String) :
    List ScheduledItem :=
  (pm.items_.map Prod.snd).filter (fun item => decide (day ∈ item.days))

/-- Source: `PlaylistManager::get_item` (playlist-manager.cpp:184-189); `none` is `nullptr`. -/
def PlaylistManager.get_item (pm : PlaylistManager) (item_id : String) : Option ScheduledItem :=
  map_find item_id pm.items_

/-- Source: the data members of `class TimeTrigger` (time-trigger.h:63-74). The steady-clock
stamp `last_update_` is written by `update_cache` and never read; `rebuild_log` counts the
`"Rebuilding time schedule"` lines that `rebuild_schedule` has logged. -/
structure TimeTrigger where
  schedule_ : List TimeSlot
  playlist_manager_ : Option PlaylistManager
  cached_day_ : String
  cached_minutes_ : Int
  check_tolerance_seconds_ : Int
  rebuild_log : Nat
  deriving DecidableEq, Repr

/-- Source: the constructor `TimeTrigger::TimeTrigger` (time-trigger.cpp:10-15). -/
def TimeTrigger.new : TimeTrigger :=
  { schedule_ := [], playlist_manager_ := none, cached_day_ := "", cached_minutes_ := -1,
    check_tolerance_seconds_ := 30, rebuild_log := 0 }

/-! ## Schedule index -/

/-- The grouping loop of `rebuild_schedule` (time-trigger.cpp:146-153): items whose time does
not parse to a minute of the day are skipped. -/
def group_by_time (day_items : List ScheduledItem) : List (Int × List String) :=
  day_items.foldl
    (fun time_to_items item =>
      let time_minutes := time_string_to_minutes item.time
      if time_minutes ≥ 0 ∧ time_minutes < 24 * 60 then
        map_push_back time_minutes item.id time_to_items
      else time_to_items)
    []

/-- The slot-building loop of `rebuild_schedule` (time-trigger.cpp:156-162). -/
def build_slots (time_to_items : List (Int × List String)) : List TimeSlot :=
  time_to_items.map (fun pair =>
    { hour := pair.1.tdiv 60, minute := pair.1.tmod 60, item_ids := pair.2 })

/-- Source: `TimeTrigger::rebuild_schedule` (time-trigger.cpp:129-172). `std::sort` with
`TimeSlot::operator<` is an insertion sort on that order. -/
def rebuild_schedule (tt : TimeTrigger) (now : Tm) : TimeTrigger :=
  let tt := { tt with schedule_ := [], rebuild_log := tt.rebuild_log + 1 }
  match tt.playlist_manager_ with
  | none => tt
  | some pm =>
    let current_day := get_current_day now
    let day_items := pm.get_items_for_day current_day
    let time_to_items := group_by_time day_items
    { tt with schedule_ := List.insertionSort TimeSlot.lt (build_slots time_to_items) }

/-! ## Trigger resolver -/

/-- Source: `TimeTrigger::is_same_day` (time-trigger.cpp:292-294). -/
def is_same_day (day1 day2 : String) : Bool :=
  decide (day1 = day2)

/-- Source: `TimeTrigger::update_cache` (time-trigger.cpp:214-218). -/
def update_cache (tt : TimeTrigger) (now : Tm) : TimeTrigger :=
  { tt with cached_day_ := get_current_day now, cached_minutes_ := get_current_minutes now }

/-- Source: `TimeTrigger::update_schedule` (time-trigger.cpp:65-75). -/
def update_schedule (tt : TimeTrigger) (now : Tm) : TimeTrigger :=
  let tt := update_cache tt now
  if tt.schedule_.isEmpty || !is_same_day tt.cached_day_ (get_current_day now) then
    update_cache (rebuild_schedule tt now) now
  else tt

/-- Source: `TimeTrigger::clear_schedule` (time-trigger.cpp:174-178). -/
def clear_schedule (tt : TimeTrigger) : TimeTrigger :=
  { tt with schedule_ := [] }

/-- The loop of `get_items_at_time` over a slot list, `tolerance` being
`check_tolerance_seconds_ / 60`. -/
def items_at_time_loop (tolerance minutes : Int) : List TimeSlot → List String → List String
  | [], result => result
  | slot :: rest, result =>
    let slot_minutes := slot.to_minutes
    let diff : Int := ((minutes - slot_minutes).natAbs : Int)
    if diff ≤ tolerance then items_at_time_loop tolerance minutes rest (result ++ slot.item_ids)
    else items_at_time_loop tolerance minutes rest result

/-- Source: `TimeTrigger::get_items_at_time` (time-trigger.cpp:220-234). -/
def get_items_at_time (tt : TimeTrigger) (minutes : Int) : List String :=
  items_at_time_loop (tt.check_tolerance_seconds_.tdiv 60) minutes tt.schedule_ []

/-- The loop of `get_items_after_time` with its `break`; `static_cast<size_t>(max_count)` is
`max_count` modulo `2^64`. -/
def items_after_time_loop (minutes max_count : Int) : List TimeSlot → List String → List String
  | [], result => result
  | slot :: rest, result =>
    let slot_minutes := slot.to_minutes
    if slot_minutes > minutes then
      let result := result ++ slot.item_ids
      if (result.length : Int) ≥ max_count % 18446744073709551616 then result
      else items_after_time_loop minutes max_count rest result
    else items_after_time_loop minutes max_count rest result

/-- Source: `TimeTrigger::get_items_after_time` (time-trigger.cpp:236-252). -/
def get_items_after_time (tt : TimeTrigger) (minutes max_count : Int) : List String :=
  items_after_time_loop minutes max_count tt.schedule_ []

/-- Source: `TimeTrigger::get_current_items` (time-trigger.cpp:77-84): the trigger after
`update_schedule`, and the returned ids. -/
def get_current_items (tt : TimeTrigger) (now : Tm) : TimeTrigger × List String :=
  let tt := update_schedule tt now
  let current_minutes := get_current_minutes now
  (tt, get_items_at_time tt current_minutes)

/-- Source: `TimeTrigger::get_next_items` (time-trigger.cpp:86-95). -/
def get_next_items (tt : TimeTrigger) (now : Tm) : TimeTrigger × List String :=
  let tt := update_schedule tt now
  let current_minutes := get_current_minutes now
  (tt, get_items_after_time tt current_minutes 1)

/-- Source: `TimeTrigger::get_upcoming_items` (time-trigger.cpp:97-104). -/
def get_upcoming_items (tt : TimeTrigger) (now : Tm) (count : Int) : TimeTrigger × List String :=
  let tt := update_schedule tt now
  let current_minutes := get_current_minutes now
  (tt, get_items_after_time tt current_minutes count)

/-! ## Schedule store: configuration, files and loading -/

/-- Source: `struct Config::ScheduleFile` (config.h:10-14). -/
structure ScheduleFile where
  path : String
  enabled : Bool
  name : String
  deriving DecidableEq, Repr

/-- Source: the static data members of `class Config` (config.h:46-51). -/
structure Config where
  enabled_ : Bool
  check_interval_seconds_ : Int
  timezone_ : String
  debug_mode_ : Bool
  schedule_files_ : List ScheduleFile
  deriving DecidableEq, Repr

/-- Source: `Config::get_schedule_files` (config.cpp:169-172). -/
def Config.get_schedule_files (cfg : Config) : List ScheduleFile :=
  cfg.schedule_files_

/-- What the file system answers for a path: `std::filesystem::exists` is false (`missing`),
the file exists but `std::ifstream` cannot open it (`unreadable`), or its content. -/
inductive FileState where
  | missing
  | unreadable
  | readable (content : String)
  deriving DecidableEq, Repr

/-- Whether the string begins with `pat`. -/
def starts_with : List Char → List Char → Bool
  | [], _ => true
  | _ :: _, [] => false
  | p :: ps, c :: cs => decide (p = c) && starts_with ps cs

/-- The call `s.find(pat)`: first position where `pat` occurs, `none` for `npos`. -/
def find_str (pat : List Char) : List Char → Option Nat
  | [] => if pat.isEmpty then some 0 else none
  | c :: cs => if starts_with pat (c :: cs) then some 0 else (find_str pat cs).map (· + 1)

/-- The call `s.find(pat, pos)`. -/
def find_str_from (pat s : List Char) (pos : Nat) : Option Nat :=
  if pos > s.length then none else (find_str pat (s.drop pos)).map (· + pos)

/-- The content test of `PlaylistManager::validate_schedule_file`
(playlist-manager.cpp:244-253). -/
def validate_content (content : String) : Bool :=
  (find_str "\"version\"".data content.data).isSome &&
    (find_str "\"playlists\"".data content.data).isSome

/-- The quoted value following `key` as `parse_playlist_json` extracts it
(playlist-manager.cpp:334-344 and 347-357); `none` when one of the four `find` calls
yields `npos`. -/
def extract_quoted (key : String) (json_content : List Char) : Option String :=
  match find_str key.data json_content with
  | none => none
  | some key_pos =>
    match find_str_from [':'] json_content key_pos with
    | none => none
    | some colon_pos =>
      match find_str_from ['"'] json_content colon_pos with
      | none => none
      | some value_start =>
        match find_str_from ['"'] json_content (value_start + 1) with
        | none => none
        | some value_end =>
          some (String.mk ((json_content.drop (value_start + 1)).take
            (value_end - value_start - 1)))

/-- The default-constructed `Playlist`. -/
def Playlist.new : Playlist :=
  { name := "", id := "", days := [], items := [], enabled := true }

/-- The default-constructed `ScheduledItem`. -/
def ScheduledItem.new : ScheduledItem :=
  { id := "", name := "", time := "", source := "", file_path := "", duration := 0,
    loop := false, scene := "", days := [] }

/-- The day list of `parse_playlist_json` (playlist-manager.cpp:360). -/
def all_days : List String :=
  ["monday", "tuesday", "wednesday", "thursday", "friday", "saturday", "sunday"]

/-- Source: `PlaylistManager::parse_playlist_json` (playlist-manager.cpp:328-378), applied to
a default-constructed playlist; it always returns `true`. -/
def parse_playlist_json (pm : PlaylistManager) (json_content : String) :
    PlaylistManager × Playlist :=
  let playlist := Playlist.new
  let playlist := match extract_quoted "\"name\"" json_content.data with
    | some v => { playlist with name := v }
    | none => playlist
  let pm := match extract_quoted "\"default_idle\"" json_content.data with
    | some v => { pm with default_idle_content_ := v }
    | none => pm
  let playlist := { playlist with days := all_days }
  let sample_item : ScheduledItem :=
    { ScheduledItem.new with
      name := "Sample Item", time := "09:00", source := "Media Source",
      file_path := pm.default_idle_content_, days := all_days }
  (pm, { playlist with items := playlist.items ++ [sample_item] })

/-- Source: `PlaylistManager::generate_item_id` (playlist-manager.cpp:380-382); `hash` is
`std::hash<std::string>`. -/
def generate_item_id (hash : String → Nat) (item : ScheduledItem) : String :=
  item.source ++ "_" ++ item.time ++ "_" ++ toString (hash item.name)

/-- Source: `PlaylistManager::generate_playlist_id` (playlist-manager.cpp:384-386). -/
def generate_playlist_id (hash : String → Nat) (name : String) : String :=
  "playlist_" ++ toString (hash name)

/-- The loop "Add items to the global item map" of `load_schedule_file`
(playlist-manager.cpp:108-112): each item of the playlist, in playlist order, gets its
generated id and is stored under it. -/
def add_items (hash : String → Nat) (playlist_items : List ScheduledItem)
    (items_ : List (String × ScheduledItem)) : List (String × ScheduledItem) :=
  playlist_items.foldl
    (fun items (item : ScheduledItem) =>
      let item := { item with id := generate_item_id hash item }
      map_insert item.id item items)
    items_

/-- Source: `PlaylistManager::load_schedule_file` (playlist-manager.cpp:66-123): the manager
afterwards and the returned flag. -/
def PlaylistManager.load_schedule_file (pm : PlaylistManager) (fs : String → FileState)
    (hash : String → Nat) (file_path : String) : PlaylistManager × Bool :=
  match fs file_path with
  | .missing => (pm, false)
  | .unreadable => (pm, false)
  | .readable content =>
    if !validate_content content then (pm, false)
    else
      let (pm, playlist) := parse_playlist_json pm content
      let pm := match map_find file_path pm.file_to_playlist_id_ with
        | none => pm
        | some old_id =>
          match map_find old_id pm.playlists_ with
          | none => pm
          | some old =>
            { pm with
              items_ := old.items.foldl
                (fun items (item : ScheduledItem) => map_erase item.id items) pm.items_,
              playlists_ := map_erase old_id pm.playlists_ }
      let playlist_id := generate_playlist_id hash playlist.name
      let playlist := { playlist with id := playlist_id }
      let pm := { pm with
        playlists_ := map_insert playlist_id playlist pm.playlists_,
        file_to_playlist_id_ := map_insert file_path playlist_id pm.file_to_playlist_id_ }
      let pm := { pm with items_ := add_items hash playlist.items pm.items_ }
      (pm, true)

/-- Source: `PlaylistManager::reload_schedules` (playlist-manager.cpp:147-162). -/
def PlaylistManager.reload_schedules (pm : PlaylistManager) (cfg : Config)
    (fs : String → FileState) (hash : String → Nat) : PlaylistManager :=
  let pm := { pm with playlists_ := [], items_ := [], file_to_playlist_id_ := [] }
  cfg.get_schedule_files.foldl
    (fun pm file_info =>
      if file_info.enabled then (pm.load_schedule_file fs hash file_info.path).1 else pm)
    pm

/-! ## Execution loop -/

/-- What the scheduler does towards the media controller and the log, in order of occurrence.
The `log_` events are the log lines of `scheduler_loop` and `execute_scheduled_item`;
`play_idle_content` and `execute_item` are the calls made on `media_controller_`. -/
inductive Event where
  | log_reloaded
  | log_executing (item_id : String)
  | play_idle_content
  | log_not_found (item_id : String)
  | execute_item (item : ScheduledItem)
  | log_success (item_id : String)
  | log_failed (item_id : String)
  deriving DecidableEq, Repr

/-- The media controller as the scheduler sees it: what each call answers, `none` standing
for a thrown `std::exception`. -/
structure MediaController where
  execute_item : ScheduledItem → Option Bool
  play_idle_content : Option Bool

/-- Number of `steady_clock` ticks in a second (nanosecond ticks). -/
def steady_ticks_per_second : Int := 1000000000

/-- Source: the data members of `class SchedulerCore` (scheduler-core.h:42-60). The thread,
the condition variable and the mutexes are left out; `media_controller_` is the parameter of
the operations that call it, `trace` records the events. -/
structure SchedulerCore where
  running_ : Bool
  enabled_ : Bool
  should_reload_ : Bool
  playlist_manager_ : PlaylistManager
  time_trigger_ : TimeTrigger
  current_item_id_ : String
  next_item_id_ : String
  last_check_time_ : Int
  check_interval_seconds_ : Int
  trace : List Event
  deriving DecidableEq, Repr

/-- Source: the constructor `SchedulerCore::SchedulerCore` (scheduler-core.cpp:9-16), with the
components that `initialize` creates. -/
def SchedulerCore.new (pm : PlaylistManager) (tt : TimeTrigger) (steady_now : Int) :
    SchedulerCore :=
  { running_ := false, enabled_ := true, should_reload_ := false, playlist_manager_ := pm,
    time_trigger_ := tt, current_item_id_ := "", next_item_id_ := "",
    last_check_time_ := steady_now, check_interval_seconds_ := 1, trace := [] }

/-- Appends one event to the trace. -/
def SchedulerCore.emit (s : SchedulerCore) (e : Event) : SchedulerCore :=
  { s with trace := s.trace ++ [e] }

/-- Source: `SchedulerCore::reload_schedules` (scheduler-core.cpp:110-114). -/
def SchedulerCore.reload_schedules (s : SchedulerCore) : SchedulerCore :=
  { s with should_reload_ := true }

/-- Source: `SchedulerCore::get_status` (scheduler-core.cpp:121-133). -/
def SchedulerCore.get_status (s : SchedulerCore) : String :=
  if !s.running_ then "Stopped"
  else if !s.enabled_ then "Disabled"
  else "Running"

/-- Source: `SchedulerCore::get_current_item` (scheduler-core.cpp:135-138). -/
def SchedulerCore.get_current_item (s : SchedulerCore) : String :=
  s.current_item_id_

/-- Source: `SchedulerCore::get_next_item` (scheduler-core.cpp:140-143). -/
def SchedulerCore.get_next_item (s : SchedulerCore) : String :=
  s.next_item_id_

/-- Source: `SchedulerCore::execute_scheduled_item` (scheduler-core.cpp:224-249). -/
def execute_scheduled_item (s : SchedulerCore) (mc : MediaController) (item_id : String) :
    SchedulerCore :=
  let s := s.emit (.log_executing item_id)
  if item_id = "idle" then
    let s := s.emit .play_idle_content
    match mc.play_idle_content with
    | some _ => s
    | none => s.emit (.log_failed item_id)
  else
    match s.playlist_manager_.get_item item_id with
    | none => s.emit (.log_not_found item_id)
    | some item =>
      let s := s.emit (.execute_item item)
      match mc.execute_item item with
      | some _ => s.emit (.log_success item_id)
      | none => s.emit (.log_failed item_id)

/-- The loop `for (item_id : current_items)` of `check_and_execute_schedules`
(scheduler-core.cpp:201-208). -/
def execute_current_items (s : SchedulerCore) (mc : MediaController) :
    List String → SchedulerCore
  | [] => s
  | item_id :: rest =>
    if s.current_item_id_ ≠ item_id then
      execute_current_items
        { execute_scheduled_item s mc item_id with current_item_id_ := item_id } mc rest
    else execute_current_items s mc rest

/-- The expression `next_items.empty() ? "None" : next_items[0]` (scheduler-core.cpp:197). -/
def next_or_none : List String → String
  | [] => "None"
  | first :: _ => first

/-- The body of the `try` block of `check_and_execute_schedules` after the two calls to the
time trigger (scheduler-core.cpp:194-217), given the lists they returned. -/
def evaluate_items (s : SchedulerCore) (mc : MediaController)
    (current_items next_items : List String) : SchedulerCore :=
  let s := { s with next_item_id_ := next_or_none next_items }
  let s := execute_current_items s mc current_items
  if current_items.isEmpty then
    if s.current_item_id_ ≠ "" ∧ s.current_item_id_ ≠ "idle" then
      { execute_scheduled_item s mc "idle" with current_item_id_ := "idle" }
    else s
  else s

/-- The rate guard of `check_and_execute_schedules` (scheduler-core.cpp:180-185): whether the
evaluation is skipped at steady-clock reading `steady_now`. -/
def rate_guard_skips (s : SchedulerCore) (steady_now : Int) : Bool :=
  decide ((steady_now - s.last_check_time_).tdiv steady_ticks_per_second
    < s.check_interval_seconds_)

/-- Source: `SchedulerCore::check_and_execute_schedules` (scheduler-core.cpp:176-222). -/
def check_and_execute_schedules (s : SchedulerCore) (mc : MediaController) (steady_now : Int)
    (now : Tm) : SchedulerCore :=
  if rate_guard_skips s steady_now then s
  else
    let s := { s with last_check_time_ := steady_now }
    let (tt, current_items) := get_current_items s.time_trigger_ now
    let (tt, next_items) := get_next_items tt now
    evaluate_items { s with time_trigger_ := tt } mc current_items next_items

/-- One pass of the loop `while (running_)` in `SchedulerCore::scheduler_loop`
(scheduler-core.cpp:148-171): the test of `running_` and the body up to the timed wait. -/
def scheduler_loop_iteration (s : SchedulerCore) (cfg : Config) (fs : String → FileState)
    (hash : String → Nat) (mc : MediaController) (steady_now : Int) (now : Tm) :
    SchedulerCore :=
  if !s.running_ then s
  else if s.enabled_ then
    let s :=
      if s.should_reload_ then
        ({ s with
            should_reload_ := false,
            playlist_manager_ := s.playlist_manager_.reload_schedules cfg fs hash }).emit
          .log_reloaded
      else s
    check_and_execute_schedules s mc steady_now now
  else s

/-- One evaluated poll tick as the scheduler sees it: the answers of the media controller
during the tick and the two lists the time trigger returned. -/
structure Tick where
  mc : MediaController
  current_items : List String
  next_items : List String

/-- A sequence of evaluated poll ticks. -/
def run_ticks (s : SchedulerCore) : List Tick → SchedulerCore
  | [] => s
  | tick :: rest =>
    run_ticks (evaluate_items s tick.mc tick.current_items tick.next_items) rest

/-- How often `execute_scheduled_item(item_id)` was entered, read off the trace. -/
def invocations (item_id : String) (trace : List Event) : Nat :=
  trace.count (Event.log_executing item_id)

/-- How often `play_idle_content` was called on the media controller, read off the trace. -/
def idle_calls (trace : List Event) : Nat :=
  trace.count Event.play_idle_content

/-! ## Lock guards -/

/-- The statement `std::lock_guard<std::mutex> lock(mutex_)`, given whether the calling thread
holds `mutex_` already: `none` is the acquisition of a held, non-recursive mutex, otherwise
the mutex is held from here to the end of the scope. -/
def mutex_acquire (held : Bool) : Option Bool :=
  if held then none else some true

/-! ## Control operations -/

/-- Source: `Config::is_enabled` (config.cpp:219-222). -/
def Config.is_enabled (cfg : Config) : Bool :=
  cfg.enabled_

/-- Source: `Config::save` (config.cpp:103-142) with its lock guard, given whether the calling
thread holds `Config::mutex_`: once the mutex is acquired the configuration file is written
(or an error is logged) and no member changes. The result is the configuration and the state
of the mutex when the guard has gone out of scope. -/
def Config.save (cfg : Config) (held : Bool) : Option (Config × Bool) :=
  match mutex_acquire held with
  | none => none
  | some _ => some (cfg, false)

/-- Source: `Config::set_enabled` (config.cpp:224-228) with its lock guard and the guarded
`save()` it calls while the guard is in scope. -/
def Config.set_enabled (cfg : Config) (held : Bool) (enabled : Bool) : Option (Config × Bool) :=
  match mutex_acquire held with
  | none => none
  | some held_inside =>
    match Config.save { cfg with enabled_ := enabled } held_inside with
    | none => none
    | some (cfg, _) => some (cfg, false)

/-- Source: `SchedulerCore::is_running` (scheduler-core.cpp:102-104). -/
def SchedulerCore.is_running (s : SchedulerCore) : Bool :=
  s.running_

/-- Source: `SchedulerCore::is_enabled` (scheduler-core.cpp:106-108). -/
def SchedulerCore.is_enabled (s : SchedulerCore) : Bool :=
  s.enabled_

/-- Source: `SchedulerCore::start` (scheduler-core.cpp:58-71); the spawned thread is the
sequence of loop iterations that follows. -/
def SchedulerCore.start (s : SchedulerCore) : SchedulerCore :=
  if s.running_ then s else { s with running_ := true }

/-- Source: `SchedulerCore::stop` (scheduler-core.cpp:73-90). -/
def SchedulerCore.stop (s : SchedulerCore) : SchedulerCore :=
  if !s.running_ then s else { s with running_ := false }

/-- Source: `SchedulerCore::toggle_enabled` (scheduler-core.cpp:92-100). The atomic flag
`enabled_` is negated first; then `Config::set_enabled` is called, by a thread that does not
hold `Config::mutex_`. The result is the scheduler as it is when the call has returned or has
come to a halt inside `Config::set_enabled`, and the configuration if the call has returned
(`none` if `Config::set_enabled` ended in the acquisition of a held mutex). -/
def SchedulerCore.toggle_enabled (s : SchedulerCore) (cfg : Config) :
    SchedulerCore × Option Config :=
  let s := { s with enabled_ := !s.enabled_ }
  (s, (cfg.set_enabled false s.enabled_).map Prod.fst)

/-- Source: `SchedulerCore::force_check` (scheduler-core.cpp:116-119): it only notifies the
condition variable. -/
def SchedulerCore.force_check (s : SchedulerCore) : SchedulerCore :=
  s

/-- The ids of a list of slots, in slot order. -/
def slot_ids (slots : List TimeSlot) : List String :=
  (slots.map TimeSlot.item_ids).flatten

/-- The slots that lie after `minutes`, in schedule order. -/
def later_slots (minutes : Int) (slots : List TimeSlot) : List TimeSlot :=
  slots.filter (fun slot => decide (slot.to_minutes > minutes))

/-- The events of one call `execute_scheduled_item(item_id)`, given the playlist manager and
the answers of the media controller. -/
def item_events (pm : PlaylistManager) (mc : MediaController) (item_id : String) :
    List Event :=
  if item_id = "idle" then
    match mc.play_idle_content with
    | some _ => [.log_executing item_id, .play_idle_content]
    | none => [.log_executing item_id, .play_idle_content, .log_failed item_id]
  else
    match pm.get_item item_id with
    | none => [.log_executing item_id, .log_not_found item_id]
    | some item =>
      match mc.execute_item item with
      | some _ => [.log_executing item_id, .execute_item item, .log_success item_id]
      | none => [.log_executing item_id, .execute_item item, .log_failed item_id]

/-- The ids of `current_items` that pass the test `current_item_id_ != item_id` of the loop,
`current` being `current_item_id_` before the loop. -/
def fired_ids (current : String) : List String → List String
  | [] => []
  | item_id :: rest =>
    if current ≠ item_id then item_id :: fired_ids item_id rest else fired_ids current rest

/-- The state after the block `if (should_reload_) { ... }` of `scheduler_loop`
(scheduler-core.cpp:152-156). -/
def after_reload (s : SchedulerCore) (cfg : Config) (fs : String → FileState)
    (hash : String → Nat) : SchedulerCore :=
  if s.should_reload_ then
    ({ s with
        should_reload_ := false,
        playlist_manager_ := s.playlist_manager_.reload_schedules cfg fs hash }).emit
      .log_reloaded
  else s

/-! ## Unloading -/

/-- Source: `PlaylistManager::unload_schedule_file` (playlist-manager.cpp:125-145). -/
def PlaylistManager.unload_schedule_file (pm : PlaylistManager) (file_path : String) :
    PlaylistManager :=
  match map_find file_path pm.file_to_playlist_id_ with
  | none => pm
  | some playlist_id =>
    let pm := match map_find playlist_id pm.playlists_ with
      | none => pm
      | some playlist =>
        { pm with
          items_ := playlist.items.foldl
            (fun items (item : ScheduledItem) => map_erase item.id items) pm.items_,
          playlists_ := map_erase playlist_id pm.playlists_ }
    { pm with file_to_playlist_id_ := map_erase file_path pm.file_to_playlist_id_ }

/-- Source: `PlaylistManager::get_total_items` (playlist-manager.cpp:282-285). -/
def PlaylistManager.get_total_items (pm : PlaylistManager) : Nat :=
  pm.items_.length

/-! ## The mutex of the time trigger -/

/-- Source: `TimeTrigger::update_schedule` (time-trigger.cpp:65-75) with its lock guard: the
trigger afterwards and the state of the mutex when the guard has gone out of scope. -/
def update_schedule_guarded (tt : TimeTrigger) (held : Bool) (now : Tm) :
    Option (TimeTrigger × Bool) :=
  match mutex_acquire held with
  | none => none
  | some _ => some (update_schedule tt now, false)

/-- Source: `TimeTrigger::get_current_items` (time-trigger.cpp:77-84) with its lock guard and
the guarded `update_schedule` it calls. -/
def get_current_items_guarded (tt : TimeTrigger) (held : Bool) (now : Tm) :
    Option ((TimeTrigger × List String) × Bool) :=
  match mutex_acquire held with
  | none => none
  | some held_inside =>
    match update_schedule_guarded tt held_inside now with
    | none => none
    | some (tt, _) =>
      let current_minutes := get_current_minutes now
      some ((tt, get_items_at_time tt current_minutes), false)

/-- Source: `TimeTrigger::get_next_items` (time-trigger.cpp:86-95) with its lock guard. -/
def get_next_items_guarded (tt : TimeTrigger) (held : Bool) (now : Tm) :
    Option ((TimeTrigger × List String) × Bool) :=
  match mutex_acquire held with
  | none => none
  | some held_inside =>
    match update_schedule_guarded tt held_inside now with
    | none => none
    | some (tt, _) =>
      let current_minutes := get_current_minutes now
      some ((tt, get_items_after_time tt current_minutes 1), false)

/-- Source: `TimeTrigger::get_upcoming_items` (time-trigger.cpp:97-104) with its lock
guard. -/
def get_upcoming_items_guarded (tt : TimeTrigger) (held : Bool) (now : Tm) (count : Int) :
    Option ((TimeTrigger × List String) × Bool) :=
  match mutex_acquire held with
  | none => none
  | some held_inside =>
    match update_schedule_guarded tt held_inside now with
    | none => none
    | some (tt, _) =>
      let current_minutes := get_current_minutes now
      some ((tt, get_items_after_time tt current_minutes count), false)

/-! ## The schedule-file list of the configuration -/

/-- The call `v.erase(it)` for the iterator `it` that `std::find_if` returns for `p`: the
first element satisfying `p` is removed, nothing when there is none. -/
def erase_first (p : ScheduleFile → Bool) : List ScheduleFile → List ScheduleFile
  | [] => []
  | x :: xs => if p x then xs else x :: erase_first p xs

/-- The assignment `*it = file` for the iterator `it` that `std::find_if` returns for `p`. -/
def replace_first (p : ScheduleFile → Bool) (file : ScheduleFile) :
    List ScheduleFile → List ScheduleFile
  | [] => []
  | x :: xs => if p x then file :: xs else x :: replace_first p file xs

/-- Source: `Config::add_schedule_file` (config.cpp:179-191) with its lock guard: when
`std::find_if` finds no entry with the path, the file is pushed back and the guarded `save()`
is called while the guard is in scope. -/
def Config.add_schedule_file (cfg : Config) (held : Bool) (file : ScheduleFile) :
    Option (Config × Bool) :=
  match mutex_acquire held with
  | none => none
  | some held_inside =>
    if cfg.schedule_files_.any (fun existing => decide (existing.path = file.path)) then
      some (cfg, false)
    else
      match Config.save { cfg with schedule_files_ := cfg.schedule_files_ ++ [file] }
        held_inside with
      | none => none
      | some (cfg, _) => some (cfg, false)

/-- Source: `Config::remove_schedule_file` (config.cpp:193-204) with its lock guard: when
`std::find_if` finds an entry with the path, it is erased and the guarded `save()` is called
while the guard is in scope. -/
def Config.remove_schedule_file (cfg : Config) (held : Bool) (path : String) :
    Option (Config × Bool) :=
  match mutex_acquire held with
  | none => none
  | some held_inside =>
    if cfg.schedule_files_.any (fun file => decide (file.path = path)) then
      match Config.save
        { cfg with
          schedule_files_ :=
            erase_first (fun file => decide (file.path = path)) cfg.schedule_files_ }
        held_inside with
      | none => none
      | some (cfg, _) => some (cfg, false)
    else
      some (cfg, false)

/-- Source: `Config::update_schedule_file` (config.cpp:206-217) with its lock guard: when
`std::find_if` finds an entry with the path, it is overwritten and the guarded `save()` is
called while the guard is in scope. -/
def Config.update_schedule_file (cfg : Config) (held : Bool) (file : ScheduleFile) :
    Option (Config × Bool) :=
  match mutex_acquire held with
  | none => none
  | some held_inside =>
    if cfg.schedule_files_.any (fun existing => decide (existing.path = file.path)) then
      match Config.save
        { cfg with
          schedule_files_ :=
            replace_first (fun existing => decide (existing.path = file.path)) file
              cfg.schedule_files_ }
        held_inside with
      | none => none
      | some (cfg, _) => some (cfg, false)
    else
      some (cfg, false)

/-! ## Time labels -/

/-- The character of a decimal digit. -/
def digit_char (d : Nat) : Char :=
  Char.ofNat (48 + d)

/-- What `<< std::setfill('0') << std::setw(2) << n` and `printf("%02d", n)` write for an
`int`: its decimal representation, filled on the left with `'0'` up to width 2. -/
def put_width2 (n : Int) : List Char :=
  let digits := (toString n).data
  List.replicate (2 - digits.length) '0' ++ digits

/-- Source: `TimeTrigger::minutes_to_time_string` (time-trigger.cpp:279-290). -/
def minutes_to_time_string (minutes : Int) : String :=
  if minutes < 0 ∨ minutes ≥ 24 * 60 then "00:00"
  else
    let hour := minutes.tdiv 60
    let minute := minutes.tmod 60
    String.mk (put_width2 hour ++ [':'] ++ put_width2 minute)

/-- Source: `TimeSlot::to_string` (time-trigger.h:27-31): `snprintf` into `char buffer[6]`
keeps at most five characters. -/
def TimeSlot.to_string (slot : TimeSlot) : String :=
  String.mk ((put_width2 slot.hour ++ [':'] ++ put_width2 slot.minute).take 5)

/-- Source: `TimeTrigger::get_next_trigger_time` (time-trigger.cpp:190-212), on the clock
reading. -/
def get_next_trigger_time (tt : TimeTrigger) (now : Tm) : String :=
  if tt.schedule_.isEmpty then "No schedule"
  else
    let current_minutes := get_current_minutes now
    match tt.schedule_.find? (fun slot => decide (slot.to_minutes > current_minutes)) with
    | some slot => slot.to_string
    | none =>
      match tt.schedule_ with
      | first :: _ => first.to_string ++ " (tomorrow)"
      | [] => "No schedule"

/-! ## Item validation -/

/-- The constructs of ECMAScript regular expressions that occur in the pattern of
`validate_item`: a literal character, a character range `[lo-hi]`, concatenation,
alternation `|` and the optional `?`. -/
inductive Regex where
  | chr (c : Char)
  | range (lo hi : Char)
  | seq (r1 r2 : Regex)
  | alt (r1 r2 : Regex)
  | opt (r : Regex)
  deriving Repr

/-- Whether the whole string is matched by the expression, as `std::regex_match` decides. -/
def Regex.full_match : Regex → List Char → Bool
  | .chr c, s => decide (s = [c])
  | .range lo hi, s =>
    match s with
    | [c] => decide (lo.toNat ≤ c.toNat ∧ c.toNat ≤ hi.toNat)
    | _ => false
  | .seq r1 r2, s =>
    (List.range (s.length + 1)).any
      (fun i => r1.full_match (s.take i) && r2.full_match (s.drop i))
  | .alt r1 r2, s => r1.full_match s || r2.full_match s
  | .opt r, s => s.isEmpty || r.full_match s

/-- The pattern `^([01]?[0-9]|2[0-3]):[0-5][0-9]$` of `validate_item`
(playlist-manager.cpp:268); the anchors hold at the ends of a whole-string match. -/
def time_regex : Regex :=
  .seq
    (.alt (.seq (.opt (.range '0' '1')) (.range '0' '9')) (.seq (.chr '2') (.range '0' '3')))
    (.seq (.chr ':') (.seq (.range '0' '5') (.range '0' '9')))

/-- Source: `PlaylistManager::validate_item` (playlist-manager.cpp:261-280); `file_exists` is
`std::filesystem::exists`, whose answer only decides about a logged warning. -/
def PlaylistManager.validate_item (file_exists : String → Bool) (item : ScheduledItem) : Bool :=
  if item.name = "" ∨ item.time = "" ∨ item.source = "" then false
  else if !time_regex.full_match item.time.data then false
  else if item.file_path ≠ "" ∧ file_exists item.file_path = false then true
  else true

/-- The time format in the words of the specification: an hour `0..23` written with one or
two digits, a colon, and a minute `00..59` written with two digits. -/
def is_hh_mm (s : List Char) : Prop :=
  (∃ h m1 m2, s = [h, ':', m1, m2] ∧ (48 ≤ h.toNat ∧ h.toNat ≤ 57) ∧
      (48 ≤ m1.toNat ∧ m1.toNat ≤ 53) ∧ (48 ≤ m2.toNat ∧ m2.toNat ≤ 57)) ∨
    ∃ a b m1 m2, s = [a, b, ':', m1, m2] ∧
      (((48 ≤ a.toNat ∧ a.toNat ≤ 49) ∧ (48 ≤ b.toNat ∧ b.toNat ≤ 57)) ∨
        (a = '2' ∧ (48 ≤ b.toNat ∧ b.toNat ≤ 51))) ∧
      (48 ≤ m1.toNat ∧ m1.toNat ≤ 53) ∧ (48 ≤ m2.toNat ∧ m2.toNat ≤ 57)

/-! ## Concrete scenarios -/

/-- An item at 09:00 that is active on Monday (the scenario of the specification). -/
def item_monday_0900 : ScheduledItem :=
  { ScheduledItem.new with
    id := "cam_09:00_1", name := "news", time := "09:00", source := "cam", days := ["monday"] }

/-- A second item at the same time of day, active on Monday and Tuesday. -/
def item_monday_0900_b : ScheduledItem :=
  { ScheduledItem.new with
    id := "deck_09:00_2", name := "jingle", time := "09:00", source := "deck",
    days := ["monday", "tuesday"] }

/-- A playlist manager holding the single Monday 09:00 item. -/
def pm_one_item : PlaylistManager :=
  { playlists_ := [], items_ := [("cam_09:00_1", item_monday_0900)],
    file_to_playlist_id_ := [], default_idle_content_ := "" }

/-- A playlist manager holding both 09:00 items. -/
def pm_two_items : PlaylistManager :=
  { playlists_ := [],
    items_ := [("cam_09:00_1", item_monday_0900), ("deck_09:00_2", item_monday_0900_b)],
    file_to_playlist_id_ := [], default_idle_content_ := "" }

/-- Clock reading: Monday 08:59 (the seconds are not read by the program). -/
def monday_0859 : Tm := { tm_wday := 1, tm_hour := 8, tm_min := 59 }

/-- Clock reading: Monday 09:00. -/
def monday_0900 : Tm := { tm_wday := 1, tm_hour := 9, tm_min := 0 }

/-- Clock reading: Sunday 23:59. -/
def sunday_2359 : Tm := { tm_wday := 0, tm_hour := 23, tm_min := 59 }

/-- A media controller whose calls all succeed. -/
def mc_ok : MediaController :=
  { execute_item := fun _ => some true, play_idle_content := some true }

/-- A freshly constructed time trigger over the two 09:00 items. -/
def tt_two_items : TimeTrigger :=
  { TimeTrigger.new with playlist_manager_ := some pm_two_items }

/-- A freshly constructed time trigger over the single Monday 09:00 item. -/
def tt_one_item : TimeTrigger :=
  { TimeTrigger.new with playlist_manager_ := some pm_one_item }

/-- A running scheduler over the two 09:00 items, last checked at steady-clock reading 0. -/
def scheduler_two_items : SchedulerCore :=
  { SchedulerCore.new pm_two_items tt_two_items 0 with running_ := true }

/-- An item at 10:00 that is active on Sunday only. -/
def item_sunday_1000 : ScheduledItem :=
  { ScheduledItem.new with
    id := "cam_10:00_3", name := "mass", time := "10:00", source := "cam", days := ["sunday"] }

/-- A playlist manager holding the Monday 09:00 item and the Sunday 10:00 item. -/
def pm_two_days : PlaylistManager :=
  { playlists_ := [],
    items_ := [("cam_09:00_1", item_monday_0900), ("cam_10:00_3", item_sunday_1000)],
    file_to_playlist_id_ := [], default_idle_content_ := "" }

/-- Clock reading: Monday 00:00. -/
def monday_0000 : Tm := { tm_wday := 1, tm_hour := 0, tm_min := 0 }

/-- The time trigger over `pm_two_days` as the last lines of `TimeTrigger::initialize`
(`rebuild_schedule(); update_cache();`) leave it on Sunday 23:59: it caches `"sunday"` and
Sunday's schedule. -/
def tt_sunday : TimeTrigger :=
  update_cache
    (rebuild_schedule { TimeTrigger.new with playlist_manager_ := some pm_two_days } sunday_2359)
    sunday_2359

/-- The time trigger over the single Monday item as `rebuild_schedule(); update_cache();`
leave it on Sunday 23:59: nothing is scheduled on Sunday, the schedule is empty. -/
def tt_sunday_empty : TimeTrigger :=
  update_cache (rebuild_schedule tt_one_item sunday_2359) sunday_2359

/-- A stand-in for `std::hash<std::string>` in the concrete scenarios. -/
def hash_len : String → Nat := String.length

/-- The content of a schedule file that passes `validate_schedule_file`. -/
def schedule_json : String :=
  "\"version\": \"1.0\", \"name\": \"Morning\", \"playlists\": []"

/-- A file system holding the schedule file `a.json`. -/
def fs_present : String → FileState :=
  fun path => if path = "a.json" then .readable schedule_json else .missing

/-- A file system from which every file has gone. -/
def fs_gone : String → FileState :=
  fun _ => .missing

/-- A configuration with the single enabled schedule file `a.json`. -/
def cfg_one_file : Config :=
  { enabled_ := true, check_interval_seconds_ := 1, timezone_ := "UTC", debug_mode_ := false,
    schedule_files_ := [{ path := "a.json", enabled := true, name := "Morning" }] }

/-- A playlist manager with nothing loaded. -/
def pm_empty : PlaylistManager :=
  { playlists_ := [], items_ := [], file_to_playlist_id_ := [], default_idle_content_ := "" }

/-- The playlist manager after `a.json` has been loaded. -/
def pm_loaded : PlaylistManager :=
  (pm_empty.load_schedule_file fs_present hash_len "a.json").1

/-- A running, enabled scheduler with `a.json` loaded and a reload requested. -/
def scheduler_loaded : SchedulerCore :=
  { SchedulerCore.new pm_loaded TimeTrigger.new 0 with running_ := true, should_reload_ := true }

/-- A running but disabled scheduler with a reload requested. -/
def scheduler_disabled : SchedulerCore :=
  { SchedulerCore.new pm_loaded TimeTrigger.new 0 with
    running_ := true, enabled_ := false, should_reload_ := true }

/-- A Monday 09:00 item on source `z`, first in its playlist. -/
def item_z : ScheduledItem :=
  { ScheduledItem.new with name := "late", time := "09:00", source := "z", days := ["monday"] }

/-- A Monday 09:00 item on source `a`, second in its playlist. -/
def item_a : ScheduledItem :=
  { ScheduledItem.new with name := "early", time := "09:00", source := "a", days := ["monday"] }

/-- The playlist manager holding `item_z` and `item_a` under their generated ids, in the
order of the map `items_`. -/
def pm_z_then_a : PlaylistManager :=
  { pm_empty with
    items_ := [("a_09:00_5", { item_a with id := "a_09:00_5" }),
      ("z_09:00_4", { item_z with id := "z_09:00_4" })] }

/-- A freshly constructed time trigger over `pm_z_then_a`. -/
def tt_z_then_a : TimeTrigger :=
  { TimeTrigger.new with playlist_manager_ := some pm_z_then_a }

/-- A steady-clock reading half a second after the last check of the concrete schedulers. -/
def half_second : Int := 500000000

/-- The configuration of a process that has not called `Config::load`: the initial values of
the static members (config.cpp:19-23). -/
def cfg_default : Config :=
  { enabled_ := true, check_interval_seconds_ := 1, timezone_ := "UTC", debug_mode_ := false,
    schedule_files_ := [] }

/-- The schedule file of `ConfigTest.ScheduleFilesTest` (test-scheduler.cpp:269-272). -/
def schedule_file_test : ScheduleFile :=
  { path := "/test/path.json", enabled := true, name := "Test Schedule" }

/-! # Theorems -/

/-! ## Lemmas on the grouping map -/

theorem map_push_back_mem_iff (k : Int) (x : String) (m : List (Int × List String))
    (k' : Int) (y : String) :
    (∃ xs, (k', xs) ∈ map_push_back k x m ∧ y ∈ xs) ↔
      (∃ xs, (k', xs) ∈ m ∧ y ∈ xs) ∨ (k' = k ∧ y = x) := by
  induction m with
  | nil =>
    simp only [map_push_back, List.mem_singleton, Prod.mk.injEq, List.not_mem_nil, false_and,
      exists_false, false_or]
    constructor
    · rintro ⟨xs, ⟨rfl, rfl⟩, hy⟩
      exact ⟨rfl, by simpa using hy⟩
    · rintro ⟨rfl, rfl⟩
      exact ⟨[y], ⟨rfl, rfl⟩, by simp⟩
  | cons p rest ih =>
    obtain ⟨k0, xs0⟩ := p
    unfold map_push_back
    by_cases h1 : k < k0
    · simp only [h1, if_true, List.mem_cons, Prod.mk.injEq]
      constructor
      · rintro ⟨xs, (⟨rfl, rfl⟩ | h), hy⟩
        · right; simpa using hy
        · left; exact ⟨xs, h, hy⟩
      · rintro (⟨xs, h, hy⟩ | ⟨rfl, rfl⟩)
        · exact ⟨xs, Or.inr h, hy⟩
        · exact ⟨[y], Or.inl ⟨rfl, rfl⟩, by simp⟩
    · by_cases h2 : k = k0
      · subst h2
        simp only [lt_self_iff_false, if_false, if_true, List.mem_cons, Prod.mk.injEq]
        constructor
        · rintro ⟨xs, (⟨rfl, rfl⟩ | h), hy⟩
          · rcases List.mem_append.1 hy with hy | hy
            · left; exact ⟨xs0, Or.inl ⟨rfl, rfl⟩, hy⟩
            · right; exact ⟨rfl, by simpa using hy⟩
          · left; exact ⟨xs, Or.inr h, hy⟩
        · rintro (⟨xs, (⟨rfl, rfl⟩ | h), hy⟩ | ⟨rfl, rfl⟩)
          · exact ⟨xs ++ [x], Or.inl ⟨rfl, rfl⟩, by simp [hy]⟩
          · exact ⟨xs, Or.inr h, hy⟩
          · exact ⟨xs0 ++ [y], Or.inl ⟨rfl, rfl⟩, by simp⟩
      · simp only [h1, h2, if_false, List.mem_cons, Prod.mk.injEq]
        constructor
        · rintro ⟨xs, (⟨rfl, rfl⟩ | h), hy⟩
          · left; exact ⟨xs, Or.inl ⟨rfl, rfl⟩, hy⟩
          · rcases ih.1 ⟨xs, h, hy⟩ with ⟨xs', h', hy'⟩ | h'
            · left; exact ⟨xs', Or.inr h', hy'⟩
            · right; exact h'
        · rintro (⟨xs, (⟨rfl, rfl⟩ | h), hy⟩ | h)
          · exact ⟨xs, Or.inl ⟨rfl, rfl⟩, hy⟩
          · obtain ⟨xs', h', hy'⟩ := ih.2 (Or.inl ⟨xs, h, hy⟩)
            exact ⟨xs', Or.inr h', hy'⟩
          · obtain ⟨xs', h', hy'⟩ := ih.2 (Or.inr h)
            exact ⟨xs', Or.inr h', hy'⟩

theorem map_push_back_keys (k : Int) (x : String) (m : List (Int × List String)) (k' : Int) :
    k' ∈ (map_push_back k x m).map Prod.fst ↔ k' = k ∨ k' ∈ m.map Prod.fst := by
  induction m with
  | nil => simp [map_push_back]
  | cons p rest ih =>
    obtain ⟨k0, xs0⟩ := p
    unfold map_push_back
    by_cases h1 : k < k0
    · simp [h1]
    · by_cases h2 : k = k0
      · subst h2; simp
      · simp only [h1, h2, if_false, List.map_cons, List.mem_cons, ih]
        tauto

theorem map_push_back_sorted (k : Int) (x : String) (m : List (Int × List String))
    (h : (m.map Prod.fst).Pairwise (· < ·)) :
    ((map_push_back k x m).map Prod.fst).Pairwise (· < ·) := by
  induction m with
  | nil => simp [map_push_back]
  | cons p rest ih =>
    obtain ⟨k0, xs0⟩ := p
    simp only [List.map_cons, List.pairwise_cons] at h
    unfold map_push_back
    by_cases h1 : k < k0
    · simp only [h1, if_true, List.map_cons, List.pairwise_cons, List.mem_cons]
      refine ⟨?_, h.1, h.2⟩
      rintro a (rfl | ha)
      · exact h1
      · exact lt_trans h1 (h.1 a ha)
    · by_cases h2 : k = k0
      · subst h2
        simpa using h
      · simp only [h1, h2, if_false, List.map_cons, List.pairwise_cons]
        refine ⟨?_, ih h.2⟩
        intro a ha
        rcases (map_push_back_keys k x rest a).1 ha with rfl | ha
        · omega
        · exact h.1 a ha

theorem group_fold_mem_iff (items : List ScheduledItem) (acc : List (Int × List String))
    (k : Int) (y : String) :
    (∃ xs, (k, xs) ∈ items.foldl
        (fun time_to_items item =>
          let time_minutes := time_string_to_minutes item.time
          if time_minutes ≥ 0 ∧ time_minutes < 24 * 60 then
            map_push_back time_minutes item.id time_to_items
          else time_to_items) acc ∧ y ∈ xs) ↔
      (∃ xs, (k, xs) ∈ acc ∧ y ∈ xs) ∨
        ∃ item ∈ items, time_string_to_minutes item.time = k ∧ 0 ≤ k ∧ k < 1440 ∧
          item.id = y := by
  induction items generalizing acc with
  | nil => simp
  | cons it rest ih =>
    rw [List.foldl_cons, ih]
    by_cases hr : time_string_to_minutes it.time ≥ 0 ∧ time_string_to_minutes it.time < 24 * 60
    · simp only [hr, and_self, if_true, map_push_back_mem_iff, List.mem_cons]
      constructor
      · rintro ((h | ⟨rfl, rfl⟩) | ⟨item, hm, h⟩)
        · exact Or.inl h
        · exact Or.inr ⟨it, Or.inl rfl, rfl, hr.1, by omega, rfl⟩
        · exact Or.inr ⟨item, Or.inr hm, h⟩
      · rintro (h | ⟨item, (rfl | hm), h⟩)
        · exact Or.inl (Or.inl h)
        · exact Or.inl (Or.inr ⟨h.1.symm, h.2.2.2.symm⟩)
        · exact Or.inr ⟨item, hm, h⟩
    · simp only [hr, if_false, List.mem_cons]
      constructor
      · rintro (h | ⟨item, hm, h⟩)
        · exact Or.inl h
        · exact Or.inr ⟨item, Or.inr hm, h⟩
      · rintro (h | ⟨item, (rfl | hm), h⟩)
        · exact Or.inl h
        · exact absurd ⟨by omega, by omega⟩ hr
        · exact Or.inr ⟨item, hm, h⟩

theorem group_fold_sorted (items : List ScheduledItem) (acc : List (Int × List String))
    (h : (acc.map Prod.fst).Pairwise (· < ·)) :
    ((items.foldl
        (fun time_to_items item =>
          let time_minutes := time_string_to_minutes item.time
          if time_minutes ≥ 0 ∧ time_minutes < 24 * 60 then
            map_push_back time_minutes item.id time_to_items
          else time_to_items) acc).map Prod.fst).Pairwise (· < ·) := by
  induction items generalizing acc with
  | nil => simpa using h
  | cons it rest ih =>
    rw [List.foldl_cons]
    apply ih
    by_cases hr : time_string_to_minutes it.time ≥ 0 ∧ time_string_to_minutes it.time < 24 * 60
    · simp only [hr, and_self, if_true]
      exact map_push_back_sorted _ _ _ h
    · simp only [hr, if_false]
      exact h

theorem group_fold_keys_range (items : List ScheduledItem) (acc : List (Int × List String))
    (h : ∀ k ∈ acc.map Prod.fst, 0 ≤ k ∧ k < 1440) :
    ∀ k ∈ (items.foldl
        (fun time_to_items item =>
          let time_minutes := time_string_to_minutes item.time
          if time_minutes ≥ 0 ∧ time_minutes < 24 * 60 then
            map_push_back time_minutes item.id time_to_items
          else time_to_items) acc).map Prod.fst, 0 ≤ k ∧ k < 1440 := by
  induction items generalizing acc with
  | nil => simpa using h
  | cons it rest ih =>
    rw [List.foldl_cons]
    apply ih
    by_cases hr : time_string_to_minutes it.time ≥ 0 ∧ time_string_to_minutes it.time < 24 * 60
    · simp only [hr, and_self, if_true]
      intro k hk
      rcases (map_push_back_keys _ _ _ k).1 hk with rfl | hk
      · exact ⟨hr.1, by omega⟩
      · exact h k hk
    · simp only [hr, if_false]
      exact h

theorem group_by_time_mem_iff (items : List ScheduledItem) (k : Int) (y : String) :
    (∃ xs, (k, xs) ∈ group_by_time items ∧ y ∈ xs) ↔
      ∃ item ∈ items, time_string_to_minutes item.time = k ∧ 0 ≤ k ∧ k < 1440 ∧
        item.id = y := by
  unfold group_by_time
  rw [group_fold_mem_iff]
  simp

theorem group_by_time_sorted (items : List ScheduledItem) :
    ((group_by_time items).map Prod.fst).Pairwise (· < ·) := by
  unfold group_by_time
  exact group_fold_sorted items [] (by simp)

theorem group_by_time_keys_range (items : List ScheduledItem) :
    ∀ k ∈ (group_by_time items).map Prod.fst, 0 ≤ k ∧ k < 1440 := by
  unfold group_by_time
  exact group_fold_keys_range items [] (by simp)

/-- In a key-sorted association list a key has one value. -/
theorem sorted_keys_unique {α : Type} (m : List (Int × α))
    (h : (m.map Prod.fst).Pairwise (· < ·)) (k : Int) (v w : α)
    (hv : (k, v) ∈ m) (hw : (k, w) ∈ m) : v = w := by
  induction m with
  | nil => simp at hv
  | cons p rest ih =>
    obtain ⟨k0, v0⟩ := p
    simp only [List.map_cons, List.pairwise_cons] at h
    simp only [List.mem_cons, Prod.mk.injEq] at hv hw
    have hlt : ∀ u, (k, u) ∈ rest → k0 < k := fun u hu =>
      h.1 k (List.mem_map.2 ⟨(k, u), hu, rfl⟩)
    rcases hv with ⟨hk, rfl⟩ | hv
    · rcases hw with ⟨_, rfl⟩ | hw
      · rfl
      · have := hlt w hw
        omega
    · rcases hw with ⟨hk, rfl⟩ | hw
      · have := hlt v hv
        omega
      · exact ih h.2 hv hw

theorem to_minutes_build (k : Int) (xs : List String) :
    TimeSlot.to_minutes { hour := k.tdiv 60, minute := k.tmod 60, item_ids := xs } = k := by
  unfold TimeSlot.to_minutes
  have := Int.tdiv_add_tmod k 60
  simp only
  linarith

theorem mem_build_slots (m : List (Int × List String)) (slot : TimeSlot) :
    slot ∈ build_slots m ↔
      ∃ k xs, (k, xs) ∈ m ∧
        slot = { hour := k.tdiv 60, minute := k.tmod 60, item_ids := xs } := by
  unfold build_slots
  simp only [List.mem_map, Prod.exists]
  constructor
  · rintro ⟨k, xs, h, rfl⟩
    exact ⟨k, xs, h, rfl⟩
  · rintro ⟨k, xs, h, rfl⟩
    exact ⟨k, xs, h, rfl⟩

/-- The slots of a rebuilt schedule are the entries of the grouping map of the day's items. -/
theorem mem_rebuild_schedule (tt : TimeTrigger) (pm : PlaylistManager) (now : Tm)
    (hpm : tt.playlist_manager_ = some pm) (slot : TimeSlot) :
    slot ∈ (rebuild_schedule tt now).schedule_ ↔
      ∃ k xs, (k, xs) ∈ group_by_time (pm.get_items_for_day (get_current_day now)) ∧
        slot = { hour := k.tdiv 60, minute := k.tmod 60, item_ids := xs } := by
  unfold rebuild_schedule
  simp only [hpm]
  rw [(List.perm_insertionSort TimeSlot.lt _).mem_iff, mem_build_slots]

/-! ## C1: which items a rebuilt schedule holds -/

/-- C1. For a time trigger with a playlist manager whose items carry pairwise distinct ids
(they are the values of a map keyed by id) and every weekday of the clock reading: the
schedule built by `rebuild_schedule` holds an item's id if and only if the item's days
contain that weekday and its time parses to a minute in `[0, 1440)`; every slot holding the id
has `to_minutes` equal to the parsed minute, and slots are determined by their minute, so two
items with the same time of day share a slot. -/
theorem rebuild_schedule_contains_iff (tt : TimeTrigger) (pm : PlaylistManager) (now : Tm)
    (hpm : tt.playlist_manager_ = some pm)
    (hids : ((pm.items_.map Prod.snd).map ScheduledItem.id).Nodup)
    (item : ScheduledItem) (hitem : item ∈ pm.items_.map Prod.snd) :
    ((∃ slot ∈ (rebuild_schedule tt now).schedule_, item.id ∈ slot.item_ids) ↔
        (get_current_day now ∈ item.days ∧ 0 ≤ time_string_to_minutes item.time ∧
          time_string_to_minutes item.time < 1440)) ∧
      (∀ slot ∈ (rebuild_schedule tt now).schedule_, item.id ∈ slot.item_ids →
        slot.to_minutes = time_string_to_minutes item.time) ∧
      (∀ slot ∈ (rebuild_schedule tt now).schedule_,
        ∀ slot' ∈ (rebuild_schedule tt now).schedule_,
          slot.to_minutes = slot'.to_minutes → slot = slot') := by
  have key : ∀ slot ∈ (rebuild_schedule tt now).schedule_, item.id ∈ slot.item_ids →
      get_current_day now ∈ item.days ∧ 0 ≤ time_string_to_minutes item.time ∧
        time_string_to_minutes item.time < 1440 ∧
        slot.to_minutes = time_string_to_minutes item.time := by
    intro slot hslot hid
    obtain ⟨k, xs, hk, rfl⟩ := (mem_rebuild_schedule tt pm now hpm slot).1 hslot
    obtain ⟨item', hmem, ht, h0, h1, hid'⟩ :=
      (group_by_time_mem_iff _ k item.id).1 ⟨xs, hk, hid⟩
    unfold PlaylistManager.get_items_for_day at hmem
    rw [List.mem_filter] at hmem
    have heq : item' = item := List.inj_on_of_nodup_map hids hmem.1 hitem hid'
    subst heq
    rw [to_minutes_build, ht]
    exact ⟨by simpa using hmem.2, h0, h1, rfl⟩
  refine ⟨⟨?_, ?_⟩, ?_, ?_⟩
  · rintro ⟨slot, hslot, hid⟩
    obtain ⟨hd, h0, h1, _⟩ := key slot hslot hid
    exact ⟨hd, h0, h1⟩
  · rintro ⟨hd, h0, h1⟩
    have hmem : item ∈ pm.get_items_for_day (get_current_day now) := by
      unfold PlaylistManager.get_items_for_day
      rw [List.mem_filter]
      exact ⟨hitem, by simpa using hd⟩
    obtain ⟨xs, hk, hx⟩ := (group_by_time_mem_iff _ (time_string_to_minutes item.time)
      item.id).2 ⟨item, hmem, rfl, h0, h1, rfl⟩
    exact ⟨_, (mem_rebuild_schedule tt pm now hpm _).2 ⟨_, xs, hk, rfl⟩, hx⟩
  · intro slot hslot hid
    exact (key slot hslot hid).2.2.2
  · intro slot hslot slot' hslot' hmin
    obtain ⟨k, xs, hk, rfl⟩ := (mem_rebuild_schedule tt pm now hpm slot).1 hslot
    obtain ⟨k', xs', hk', rfl⟩ := (mem_rebuild_schedule tt pm now hpm slot').1 hslot'
    rw [to_minutes_build, to_minutes_build] at hmin
    subst hmin
    rw [sorted_keys_unique _ (group_by_time_sorted _) k xs xs' hk hk']

/-- C1 at a concrete input: two items at 09:00 on a Monday. -/
theorem rebuild_schedule_contains_iff_witness :
    tt_two_items.playlist_manager_ = some pm_two_items ∧
      ((pm_two_items.items_.map Prod.snd).map ScheduledItem.id).Nodup ∧
      item_monday_0900_b ∈ pm_two_items.items_.map Prod.snd ∧
      ((∃ slot ∈ (rebuild_schedule tt_two_items monday_0900).schedule_,
          item_monday_0900_b.id ∈ slot.item_ids) ↔
        (get_current_day monday_0900 ∈ item_monday_0900_b.days ∧
          0 ≤ time_string_to_minutes item_monday_0900_b.time ∧
          time_string_to_minutes item_monday_0900_b.time < 1440)) :=
  ⟨rfl, by decide, by decide,
    (rebuild_schedule_contains_iff tt_two_items pm_two_items monday_0900 rfl (by decide)
      item_monday_0900_b (by decide)).1⟩

/-! ## Lemmas on rebuilt schedules and on the resolver loops -/

theorem map_push_back_nonempty (k : Int) (x : String) (m : List (Int × List String))
    (h : ∀ p ∈ m, p.2 ≠ []) : ∀ p ∈ map_push_back k x m, p.2 ≠ [] := by
  induction m with
  | nil => simp [map_push_back]
  | cons q rest ih =>
    obtain ⟨k0, xs0⟩ := q
    have h0 : xs0 ≠ [] := h (k0, xs0) (List.mem_cons_self _ _)
    have hr : ∀ p ∈ rest, p.2 ≠ [] := fun p hp => h p (List.mem_cons_of_mem _ hp)
    unfold map_push_back
    by_cases h1 : k < k0
    · simp only [h1, if_true, List.mem_cons]
      rintro p (rfl | rfl | hp)
      · simp
      · exact h0
      · exact hr p hp
    · by_cases h2 : k = k0
      · subst h2
        simp only [lt_self_iff_false, if_false, if_true, List.mem_cons]
        rintro p (rfl | hp)
        · simp
        · exact hr p hp
      · simp only [h1, h2, if_false, List.mem_cons]
        rintro p (rfl | hp)
        · exact h0
        · exact ih hr p hp

theorem group_by_time_nonempty (items : List ScheduledItem) :
    ∀ p ∈ group_by_time items, p.2 ≠ [] := by
  unfold group_by_time
  suffices h : ∀ acc : List (Int × List String), (∀ p ∈ acc, p.2 ≠ []) →
      ∀ p ∈ items.foldl
        (fun time_to_items item =>
          let time_minutes := time_string_to_minutes item.time
          if time_minutes ≥ 0 ∧ time_minutes < 24 * 60 then
            map_push_back time_minutes item.id time_to_items
          else time_to_items) acc, p.2 ≠ [] from h [] (by simp)
  induction items with
  | nil => intro acc h; simpa using h
  | cons it rest ih =>
    intro acc h
    rw [List.foldl_cons]
    apply ih
    by_cases hr : time_string_to_minutes it.time ≥ 0 ∧ time_string_to_minutes it.time < 24 * 60
    · simp only [hr, and_self, if_true]
      exact map_push_back_nonempty _ _ _ h
    · simp only [hr, if_false]
      exact h

/-- Every id in a slot of a rebuilt schedule is the id of an item of the day whose time
parses to the minute of that slot. -/
theorem rebuild_slot_item (tt : TimeTrigger) (pm : PlaylistManager) (now : Tm)
    (hpm : tt.playlist_manager_ = some pm) (slot : TimeSlot)
    (hslot : slot ∈ (rebuild_schedule tt now).schedule_) (id : String)
    (hid : id ∈ slot.item_ids) :
    ∃ item ∈ pm.items_.map Prod.snd, item.id = id ∧ get_current_day now ∈ item.days ∧
      0 ≤ time_string_to_minutes item.time ∧ time_string_to_minutes item.time < 1440 ∧
      slot.to_minutes = time_string_to_minutes item.time := by
  obtain ⟨k, xs, hk, rfl⟩ := (mem_rebuild_schedule tt pm now hpm slot).1 hslot
  obtain ⟨item, hmem, ht, h0, h1, hid'⟩ := (group_by_time_mem_iff _ k id).1 ⟨xs, hk, hid⟩
  unfold PlaylistManager.get_items_for_day at hmem
  rw [List.mem_filter] at hmem
  refine ⟨item, hmem.1, hid', by simpa using hmem.2, ?_, ?_, ?_⟩
  · rw [ht]; exact h0
  · rw [ht]; exact h1
  · rw [to_minutes_build, ht]

/-- Slots of a rebuilt schedule are determined by their minute of day. -/
theorem rebuild_slot_minute_unique (tt : TimeTrigger) (pm : PlaylistManager) (now : Tm)
    (hpm : tt.playlist_manager_ = some pm) (slot slot' : TimeSlot)
    (hslot : slot ∈ (rebuild_schedule tt now).schedule_)
    (hslot' : slot' ∈ (rebuild_schedule tt now).schedule_)
    (hmin : slot.to_minutes = slot'.to_minutes) : slot = slot' := by
  obtain ⟨k, xs, hk, rfl⟩ := (mem_rebuild_schedule tt pm now hpm slot).1 hslot
  obtain ⟨k', xs', hk', rfl⟩ := (mem_rebuild_schedule tt pm now hpm slot').1 hslot'
  rw [to_minutes_build, to_minutes_build] at hmin
  subst hmin
  rw [sorted_keys_unique _ (group_by_time_sorted _) k xs xs' hk hk']

theorem rebuild_slot_nonempty (tt : TimeTrigger) (pm : PlaylistManager) (now : Tm)
    (hpm : tt.playlist_manager_ = some pm) (slot : TimeSlot)
    (hslot : slot ∈ (rebuild_schedule tt now).schedule_) : slot.item_ids ≠ [] := by
  obtain ⟨k, xs, hk, rfl⟩ := (mem_rebuild_schedule tt pm now hpm slot).1 hslot
  exact group_by_time_nonempty _ (k, xs) hk

theorem rebuild_schedule_tolerance (tt : TimeTrigger) (now : Tm) :
    (rebuild_schedule tt now).check_tolerance_seconds_ = tt.check_tolerance_seconds_ := by
  unfold rebuild_schedule
  cases h : tt.playlist_manager_ <;> simp [h]

theorem items_at_time_loop_eq (tolerance minutes : Int) (slots : List TimeSlot)
    (result : List String) :
    items_at_time_loop tolerance minutes slots result =
      result ++ ((slots.filter
        (fun slot => decide (|minutes - slot.to_minutes| ≤ tolerance))).map
          TimeSlot.item_ids).flatten := by
  induction slots generalizing result with
  | nil => simp [items_at_time_loop]
  | cons slot rest ih =>
    unfold items_at_time_loop
    simp only [Int.natCast_natAbs]
    by_cases h : |minutes - slot.to_minutes| ≤ tolerance
    · simp [h, ih, List.filter_cons]
    · simp [h, ih, List.filter_cons]

/-- In a rebuilt schedule over items with pairwise distinct ids, an id lies in one slot only. -/
theorem rebuild_slot_of_id_unique (tt : TimeTrigger) (pm : PlaylistManager) (now : Tm)
    (hpm : tt.playlist_manager_ = some pm)
    (hids : ((pm.items_.map Prod.snd).map ScheduledItem.id).Nodup)
    (slot slot' : TimeSlot) (hslot : slot ∈ (rebuild_schedule tt now).schedule_)
    (hslot' : slot' ∈ (rebuild_schedule tt now).schedule_) (id : String)
    (hid : id ∈ slot.item_ids) (hid' : id ∈ slot'.item_ids) : slot = slot' := by
  obtain ⟨item, hmem, hi, _, _, _, hm⟩ := rebuild_slot_item tt pm now hpm slot hslot id hid
  obtain ⟨item', hmem', hi', _, _, _, hm'⟩ :=
    rebuild_slot_item tt pm now hpm slot' hslot' id hid'
  have heq : item = item' := List.inj_on_of_nodup_map hids hmem hmem' (hi.trans hi'.symm)
  subst heq
  exact rebuild_slot_minute_unique tt pm now hpm slot slot' hslot hslot' (hm.trans hm'.symm)

/-! ## C2: the tolerance window of `get_items_at_time` -/

/-- C2. On every schedule built by `rebuild_schedule` (the items of the playlist manager,
if there is one, carrying pairwise distinct ids) and for every minute `minutes`:
`get_items_at_time` returns exactly the concatenation, in slot order, of the id lists of the
slots with `|minutes - to_minutes| ≤ check_tolerance_seconds_ / 60` (truncating division);
every slot is non-empty, and an id of a slot is in the result if and only if that slot lies
within the tolerance. -/
theorem get_items_at_time_iff (tt : TimeTrigger) (clk : Tm)
    (hids : ∀ pm, tt.playlist_manager_ = some pm →
      ((pm.items_.map Prod.snd).map ScheduledItem.id).Nodup) (minutes : Int) :
    get_items_at_time (rebuild_schedule tt clk) minutes =
        (((rebuild_schedule tt clk).schedule_.filter
          (fun slot => decide (|minutes - slot.to_minutes| ≤
            tt.check_tolerance_seconds_.tdiv 60))).map TimeSlot.item_ids).flatten ∧
      ∀ slot ∈ (rebuild_schedule tt clk).schedule_, slot.item_ids ≠ [] ∧
        ∀ id ∈ slot.item_ids,
          (id ∈ get_items_at_time (rebuild_schedule tt clk) minutes ↔
            |minutes - slot.to_minutes| ≤ tt.check_tolerance_seconds_.tdiv 60) := by
  have heq : get_items_at_time (rebuild_schedule tt clk) minutes =
      (((rebuild_schedule tt clk).schedule_.filter
        (fun slot => decide (|minutes - slot.to_minutes| ≤
          tt.check_tolerance_seconds_.tdiv 60))).map TimeSlot.item_ids).flatten := by
    unfold get_items_at_time
    rw [items_at_time_loop_eq, rebuild_schedule_tolerance]
    simp
  refine ⟨heq, ?_⟩
  intro slot hslot
  cases hpm : tt.playlist_manager_ with
  | none =>
    have hnil : (rebuild_schedule tt clk).schedule_ = [] := by
      unfold rebuild_schedule
      simp [hpm]
    rw [hnil] at hslot
    simp at hslot
  | some pm =>
    refine ⟨rebuild_slot_nonempty tt pm clk hpm slot hslot, ?_⟩
    intro id hid
    rw [heq]
    simp only [List.mem_flatten, List.mem_map, List.mem_filter, decide_eq_true_eq]
    constructor
    · rintro ⟨ids, ⟨slot', ⟨hslot', hwin⟩, rfl⟩, hid'⟩
      have : slot = slot' :=
        rebuild_slot_of_id_unique tt pm clk hpm (hids pm hpm) slot slot' hslot hslot' id hid
          hid'
      rw [this]
      exact hwin
    · intro hwin
      exact ⟨slot.item_ids, ⟨slot, ⟨hslot, hwin⟩, rfl⟩, hid⟩

/-- C2 at a concrete input: two items at 09:00, asked at minute 540. -/
theorem get_items_at_time_iff_witness :
    (∀ pm, tt_two_items.playlist_manager_ = some pm →
        ((pm.items_.map Prod.snd).map ScheduledItem.id).Nodup) ∧
      get_items_at_time (rebuild_schedule tt_two_items monday_0900) 540 =
        (((rebuild_schedule tt_two_items monday_0900).schedule_.filter
          (fun slot => decide (|540 - slot.to_minutes| ≤
            tt_two_items.check_tolerance_seconds_.tdiv 60))).map TimeSlot.item_ids).flatten ∧
      get_items_at_time (rebuild_schedule tt_two_items monday_0900) 540 =
        ["cam_09:00_1", "deck_09:00_2"] :=
  have hids : ∀ pm, tt_two_items.playlist_manager_ = some pm →
      ((pm.items_.map Prod.snd).map ScheduledItem.id).Nodup := by
    intro pm hpm
    have h : pm = pm_two_items := (Option.some.inj hpm).symm
    rw [h]
    decide
  ⟨hids, (get_items_at_time_iff tt_two_items monday_0900 hids 540).1, by decide⟩

/-! ## C3: the 08:59:45 scenario -/

/-- The only field `execute_scheduled_item` changes is the trace, which it extends. -/
theorem execute_scheduled_item_frame (s : SchedulerCore) (mc : MediaController)
    (item_id : String) :
    ∃ evs, execute_scheduled_item s mc item_id = { s with trace := s.trace ++ evs } := by
  unfold execute_scheduled_item SchedulerCore.emit
  by_cases h : item_id = "idle"
  · simp only [h, if_true]
    cases mc.play_idle_content with
    | none =>
      exact ⟨[.log_executing "idle", .play_idle_content, .log_failed "idle"], by simp⟩
    | some b => exact ⟨[.log_executing "idle", .play_idle_content], by simp⟩
  · simp only [h, if_false]
    cases s.playlist_manager_.get_item item_id with
    | none => exact ⟨[.log_executing item_id, .log_not_found item_id], by simp⟩
    | some item =>
      simp only
      cases mc.execute_item item with
      | none =>
        exact ⟨[.log_executing item_id, .execute_item item, .log_failed item_id], by simp⟩
      | some b =>
        exact ⟨[.log_executing item_id, .execute_item item, .log_success item_id], by simp⟩

theorem execute_scheduled_item_current (s : SchedulerCore) (mc : MediaController)
    (item_id : String) :
    (execute_scheduled_item s mc item_id).current_item_id_ = s.current_item_id_ := by
  obtain ⟨evs, h⟩ := execute_scheduled_item_frame s mc item_id
  rw [h]

/-- After the loop over a non-empty id list, `current_item_id_` is the last id of the list. -/
theorem execute_current_items_current (s : SchedulerCore) (mc : MediaController)
    (items : List String) :
    (execute_current_items s mc items).current_item_id_ =
      items.getLast?.getD s.current_item_id_ := by
  induction items generalizing s with
  | nil => rfl
  | cons item_id rest ih =>
    unfold execute_current_items
    by_cases h : s.current_item_id_ ≠ item_id
    · rw [if_pos h, ih]
      cases rest with
      | nil => simp
      | cons a l =>
        simp [List.getLast?_cons_cons, List.getLast?_eq_getLast _ (List.cons_ne_nil a l)]
    · rw [if_neg h, ih]
      have h' : s.current_item_id_ = item_id := by simpa using h
      cases rest with
      | nil => simp [h']
      | cons a l => simp [List.getLast?_cons_cons]

/-- The idle branch: what an evaluated tick with an empty id list does when the current item
is neither empty nor `"idle"`. -/
theorem evaluate_items_empty_fires (s : SchedulerCore) (mc : MediaController)
    (next_items : List String)
    (h : s.current_item_id_ ≠ "" ∧ s.current_item_id_ ≠ "idle") :
    (evaluate_items s mc [] next_items).current_item_id_ = "idle" ∧
      ∃ tail, (evaluate_items s mc [] next_items).trace =
          s.trace ++ [Event.log_executing "idle", Event.play_idle_content] ++ tail ∧
        (tail = [] ∨ tail = [Event.log_failed "idle"]) := by
  unfold evaluate_items
  simp only [execute_current_items, List.isEmpty_nil, if_true]
  rw [if_pos h]
  refine ⟨rfl, ?_⟩
  unfold execute_scheduled_item SchedulerCore.emit
  simp only [if_true]
  cases hp : mc.play_idle_content with
  | none => exact ⟨[Event.log_failed "idle"], by simp, Or.inr rfl⟩
  | some b => exact ⟨[], by simp, Or.inl rfl⟩

/-- An evaluated tick with an empty id list while the current item is `"idle"` or empty
calls nothing. -/
theorem evaluate_items_empty_quiet (s : SchedulerCore) (mc : MediaController)
    (next_items : List String)
    (h : s.current_item_id_ = "" ∨ s.current_item_id_ = "idle") :
    (evaluate_items s mc [] next_items).current_item_id_ = s.current_item_id_ ∧
      (evaluate_items s mc [] next_items).trace = s.trace := by
  unfold evaluate_items
  simp only [execute_current_items, List.isEmpty_nil, if_true]
  rw [if_neg (by rcases h with h | h <;> simp [h])]
  exact ⟨rfl, rfl⟩

theorem evaluate_items_nonempty_current (s : SchedulerCore) (mc : MediaController)
    (current_items next_items : List String) (hne : current_items ≠ []) :
    (evaluate_items s mc current_items next_items).current_item_id_ =
      current_items.getLast hne := by
  unfold evaluate_items
  have he : current_items.isEmpty = false := by
    cases current_items with
    | nil => exact absurd rfl hne
    | cons a l => rfl
  simp only [he, Bool.false_eq_true, if_false]
  rw [execute_current_items_current, List.getLast?_eq_getLast _ hne]
  rfl

/-- Ticks with empty id lists, started with the current item `"idle"`, call nothing. -/
theorem run_ticks_idle_quiet (s : SchedulerCore) (rest : List Tick)
    (hs : s.current_item_id_ = "idle") (hrest : ∀ t ∈ rest, t.current_items = []) :
    (run_ticks s rest).trace = s.trace ∧ (run_ticks s rest).current_item_id_ = "idle" := by
  induction rest generalizing s with
  | nil => exact ⟨rfl, hs⟩
  | cons t rest ih =>
    unfold run_ticks
    have ht : t.current_items = [] := hrest t (List.mem_cons_self _ _)
    have hq := evaluate_items_empty_quiet s t.mc t.next_items (Or.inr hs)
    rw [ht]
    have := ih (evaluate_items s t.mc [] t.next_items) (hq.1.trans hs)
      (fun u hu => hrest u (List.mem_cons_of_mem _ hu))
    exact ⟨this.1.trans hq.2, this.2⟩

/-- Ids made by `generate_item_id` contain an underscore: they are neither empty nor the
reserved `"idle"`. -/
theorem generate_item_id_proper (hash : String → Nat) (item : ScheduledItem) :
    generate_item_id hash item ≠ "" ∧ generate_item_id hash item ≠ "idle" := by
  have hmem : '_' ∈ (generate_item_id hash item).data := by
    unfold generate_item_id
    simp [String.data_append]
  constructor
  · intro h
    rw [h] at hmem
    simp at hmem
  · intro h
    rw [h] at hmem
    simp at hmem

/-! ## C5: idle fallback -/

/-- C5. Let a tick with a non-empty id list, whose ids are scheduled-item ids (neither empty
nor the reserved `"idle"`), be followed by a tick with an empty list and then by any number of
further ticks with empty lists. On the first empty tick `execute_scheduled_item("idle")` is
entered exactly once, `play_idle_content` is called exactly once and `current_item_id_`
becomes `"idle"`; the following empty ticks call nothing and leave it `"idle"`. -/
theorem idle_fallback_once (s : SchedulerCore) (t1 t2 : Tick) (rest : List Tick)
    (hne : t1.current_items ≠ [])
    (hids : ∀ id ∈ t1.current_items, id ≠ "" ∧ id ≠ "idle")
    (h2 : t2.current_items = [])
    (hrest : ∀ t ∈ rest, t.current_items = []) :
    idle_calls (run_ticks s [t1, t2]).trace = idle_calls (run_ticks s [t1]).trace + 1 ∧
      invocations "idle" (run_ticks s [t1, t2]).trace =
        invocations "idle" (run_ticks s [t1]).trace + 1 ∧
      (run_ticks s [t1, t2]).current_item_id_ = "idle" ∧
      (run_ticks s ([t1, t2] ++ rest)).trace = (run_ticks s [t1, t2]).trace ∧
      (run_ticks s ([t1, t2] ++ rest)).current_item_id_ = "idle" := by
  have hcur : (evaluate_items s t1.mc t1.current_items t1.next_items).current_item_id_ ≠ "" ∧
      (evaluate_items s t1.mc t1.current_items t1.next_items).current_item_id_ ≠ "idle" := by
    rw [evaluate_items_nonempty_current s t1.mc _ _ hne]
    exact hids _ (List.getLast_mem hne)
  obtain ⟨hidle, tail, htrace, htail⟩ :=
    evaluate_items_empty_fires (evaluate_items s t1.mc t1.current_items t1.next_items)
      t2.mc t2.next_items hcur
  have hq := run_ticks_idle_quiet
    (evaluate_items (evaluate_items s t1.mc t1.current_items t1.next_items) t2.mc []
      t2.next_items) rest hidle hrest
  simp only [run_ticks, List.cons_append, List.nil_append, h2]
  refine ⟨?_, ?_, hidle, hq.1, hq.2⟩
  · rw [htrace]
    unfold idle_calls
    rcases htail with rfl | rfl <;> simp [List.count_cons]
  · rw [htrace]
    unfold invocations
    rcases htail with rfl | rfl <;> simp [List.count_cons]

/-- C5 at a concrete input: one tick with the Monday item, then three empty ticks. -/
theorem idle_fallback_once_witness :
    ["cam_09:00_1"] ≠ [] ∧ (∀ id ∈ ["cam_09:00_1"], id ≠ "" ∧ id ≠ "idle") ∧
      idle_calls (run_ticks scheduler_two_items
        [⟨mc_ok, ["cam_09:00_1"], []⟩, ⟨mc_ok, [], []⟩]).trace =
        idle_calls (run_ticks scheduler_two_items [⟨mc_ok, ["cam_09:00_1"], []⟩]).trace + 1 ∧
      (run_ticks scheduler_two_items
        ([⟨mc_ok, ["cam_09:00_1"], []⟩, ⟨mc_ok, [], []⟩] ++
          [⟨mc_ok, [], []⟩, ⟨mc_ok, [], []⟩])).current_item_id_ = "idle" :=
  have h := idle_fallback_once scheduler_two_items ⟨mc_ok, ["cam_09:00_1"], []⟩
    ⟨mc_ok, [], []⟩ [⟨mc_ok, [], []⟩, ⟨mc_ok, [], []⟩] (by decide) (by decide) rfl
    (by intro t ht; simp at ht; rw [ht])
  ⟨by decide, by decide, h.1, h.2.2.2.2⟩

/-! ## C6: day-change detection -/

/-- C6 on the code: the trigger caches `"sunday"` and Sunday's non-empty schedule; at Monday
00:00 `update_schedule` does not call `rebuild_schedule`: the schedule is still Sunday's and
differs from the one `rebuild_schedule` builds for Monday, although the cached weekday now
reads `"monday"`; at Monday 09:00 the Monday item is not returned. -/
theorem update_schedule_misses_day_change :
    tt_sunday.schedule_ ≠ [] ∧ tt_sunday.cached_day_ = "sunday" ∧
      get_current_day monday_0000 = "monday" ∧
      (update_schedule tt_sunday monday_0000).rebuild_log = tt_sunday.rebuild_log ∧
      (update_schedule tt_sunday monday_0000).schedule_ = tt_sunday.schedule_ ∧
      (update_schedule tt_sunday monday_0000).schedule_ ≠
        (rebuild_schedule tt_sunday monday_0000).schedule_ ∧
      (update_schedule tt_sunday monday_0000).cached_day_ = "monday" ∧
      (get_current_items (update_schedule tt_sunday monday_0000) monday_0900).2 = [] ∧
      get_items_at_time (rebuild_schedule tt_sunday monday_0900)
        (get_current_minutes monday_0900) = ["cam_09:00_1"] := by
  decide

/-! ## C7: when `update_schedule` rebuilds -/

/-- C7, as stated, fails: on a Sunday on which nothing is scheduled the cached schedule is
empty and the cached weekday equals the current one, yet `update_schedule` calls
`rebuild_schedule`, and does so again at the next call. -/
theorem update_schedule_empty_counterexample :
    tt_sunday_empty.schedule_ = [] ∧
      tt_sunday_empty.cached_day_ = get_current_day sunday_2359 ∧
      (update_schedule tt_sunday_empty sunday_2359).rebuild_log =
        tt_sunday_empty.rebuild_log + 1 ∧
      (update_schedule (update_schedule tt_sunday_empty sunday_2359) sunday_2359).rebuild_log =
        tt_sunday_empty.rebuild_log + 2 := by
  decide

/-- C7, amended. In a state whose cached weekday equals the current weekday,
`update_schedule` calls `rebuild_schedule` exactly once when the cached schedule is empty
(also when it is empty because nothing is scheduled today) and not at all when it is
non-empty, in which case the only change is the refreshed `cached_minutes_`; after
`clear_schedule` the next `update_schedule` rebuilds. -/
theorem update_schedule_rebuilds_iff_empty (tt : TimeTrigger) (now : Tm)
    (hday : tt.cached_day_ = get_current_day now) :
    (update_schedule tt now).rebuild_log =
        (if tt.schedule_ = [] then tt.rebuild_log + 1 else tt.rebuild_log) ∧
      (tt.schedule_ ≠ [] →
        update_schedule tt now = { tt with cached_minutes_ := get_current_minutes now }) ∧
      (update_schedule (clear_schedule tt) now).rebuild_log = tt.rebuild_log + 1 := by
  have hempty : ∀ t : TimeTrigger, t.schedule_ = [] →
      (update_schedule t now).rebuild_log = t.rebuild_log + 1 := by
    intro t ht
    unfold update_schedule
    simp only [update_cache, ht, List.isEmpty_nil, Bool.true_or, if_true]
    unfold rebuild_schedule
    cases t.playlist_manager_ <;> rfl
  have hnon : tt.schedule_ ≠ [] → update_schedule tt now = update_cache tt now := by
    intro hne
    unfold update_schedule
    have he : (update_cache tt now).schedule_.isEmpty = false := by
      unfold update_cache
      cases hs : tt.schedule_ with
      | nil => exact absurd hs hne
      | cons a l => rfl
    have hd : is_same_day (update_cache tt now).cached_day_ (get_current_day now) = true := by
      unfold is_same_day update_cache
      simp
    simp [he, hd]
  have hcache :
      update_cache tt now = { tt with cached_minutes_ := get_current_minutes now } := by
    unfold update_cache
    rw [← hday]
  refine ⟨?_, fun hne => (hnon hne).trans hcache, hempty (clear_schedule tt) rfl⟩
  by_cases h : tt.schedule_ = []
  · rw [if_pos h]
    exact hempty tt h
  · rw [if_neg h, hnon h]
    rfl

/-- C7, amended, at a concrete state: Sunday's non-empty schedule read again on Sunday. -/
theorem update_schedule_rebuilds_iff_empty_witness :
    tt_sunday.cached_day_ = get_current_day sunday_2359 ∧
      (update_schedule tt_sunday sunday_2359).rebuild_log =
        (if tt_sunday.schedule_ = [] then tt_sunday.rebuild_log + 1
          else tt_sunday.rebuild_log) :=
  ⟨by decide, (update_schedule_rebuilds_iff_empty tt_sunday sunday_2359 (by decide)).1⟩

/-! ## Frame lemmas for the execution loop -/

theorem execute_current_items_frame (s : SchedulerCore) (mc : MediaController)
    (items : List String) :
    ∃ cur evs, execute_current_items s mc items =
      { s with current_item_id_ := cur, trace := s.trace ++ evs } := by
  induction items generalizing s with
  | nil => exact ⟨s.current_item_id_, [], by simp [execute_current_items]⟩
  | cons item_id rest ih =>
    unfold execute_current_items
    by_cases h : s.current_item_id_ ≠ item_id
    · rw [if_pos h]
      obtain ⟨evs, he⟩ := execute_scheduled_item_frame s mc item_id
      obtain ⟨cur, evs', hr⟩ :=
        ih { execute_scheduled_item s mc item_id with current_item_id_ := item_id }
      refine ⟨cur, evs ++ evs', ?_⟩
      rw [hr, he]
      simp
    · rw [if_neg h]
      exact ih s

theorem evaluate_items_frame (s : SchedulerCore) (mc : MediaController)
    (current_items next_items : List String) :
    ∃ cur evs, evaluate_items s mc current_items next_items =
      { s with
        next_item_id_ := next_or_none next_items, current_item_id_ := cur,
        trace := s.trace ++ evs } := by
  unfold evaluate_items
  obtain ⟨cur, evs, hc⟩ := execute_current_items_frame
    { s with next_item_id_ := next_or_none next_items } mc current_items
  simp only [hc]
  split
  · split
    · obtain ⟨evs', he⟩ := execute_scheduled_item_frame
        { s with
          next_item_id_ := next_or_none next_items, current_item_id_ := cur,
          trace := s.trace ++ evs } mc "idle"
      refine ⟨"idle", evs ++ evs', ?_⟩
      rw [he]
      simp
    · exact ⟨cur, evs, rfl⟩
  · exact ⟨cur, evs, rfl⟩

/-- What `check_and_execute_schedules` may change: the time trigger, the check stamp, the
current and next item ids; the trace is extended. -/
theorem check_and_execute_schedules_frame (s : SchedulerCore) (mc : MediaController)
    (steady_now : Int) (now : Tm) :
    ∃ tt stamp cur nxt evs, check_and_execute_schedules s mc steady_now now =
      { s with
        time_trigger_ := tt, last_check_time_ := stamp, current_item_id_ := cur,
        next_item_id_ := nxt, trace := s.trace ++ evs } := by
  unfold check_and_execute_schedules
  split
  · exact ⟨s.time_trigger_, s.last_check_time_, s.current_item_id_, s.next_item_id_, [],
      by simp⟩
  · simp only
    obtain ⟨cur, evs, he⟩ := evaluate_items_frame
      { s with
        last_check_time_ := steady_now,
        time_trigger_ := (get_next_items (get_current_items s.time_trigger_ now).1 now).1 }
      mc (get_current_items s.time_trigger_ now).2
      (get_next_items (get_current_items s.time_trigger_ now).1 now).2
    rw [he]
    exact ⟨_, _, _, _, _, rfl⟩

/-- C9, as stated, fails: in a running but disabled scheduler with `should_reload_` set, the
loop iteration neither clears the flag nor reloads. -/
theorem reload_request_disabled_counterexample :
    scheduler_disabled.running_ = true ∧ scheduler_disabled.should_reload_ = true ∧
      (scheduler_loop_iteration scheduler_disabled cfg_one_file fs_gone hash_len mc_ok
        1000000000 monday_0859).should_reload_ = true ∧
      scheduler_loop_iteration scheduler_disabled cfg_one_file fs_gone hash_len mc_ok
        1000000000 monday_0859 = scheduler_disabled := by
  decide

/-- C9, amended. In a running and enabled scheduler with `should_reload_` set, the loop
iteration clears the flag, lets the playlist manager reload and only then evaluates the
triggers: the iteration is `check_and_execute_schedules` applied to the state with the flag
cleared and the manager reloaded, the trace continues with the reload before anything the
evaluation adds, and afterwards the flag is clear and the manager is the reloaded one.
`SchedulerCore::reload_schedules` only sets the flag. -/
theorem reload_request_served (s : SchedulerCore) (cfg : Config) (fs : String → FileState)
    (hash : String → Nat) (mc : MediaController) (steady_now : Int) (now : Tm)
    (hrun : s.running_ = true) (hen : s.enabled_ = true) (hrel : s.should_reload_ = true) :
    scheduler_loop_iteration s cfg fs hash mc steady_now now =
        check_and_execute_schedules
          (({ s with
              should_reload_ := false,
              playlist_manager_ := s.playlist_manager_.reload_schedules cfg fs hash }).emit
            .log_reloaded) mc steady_now now ∧
      (scheduler_loop_iteration s cfg fs hash mc steady_now now).should_reload_ = false ∧
      (scheduler_loop_iteration s cfg fs hash mc steady_now now).playlist_manager_ =
        s.playlist_manager_.reload_schedules cfg fs hash ∧
      (∃ evs, (scheduler_loop_iteration s cfg fs hash mc steady_now now).trace =
        s.trace ++ [Event.log_reloaded] ++ evs) ∧
      (∀ s0 : SchedulerCore, s0.reload_schedules = { s0 with should_reload_ := true }) := by
  obtain ⟨tt, stamp, cur, nxt, evs, hc⟩ := check_and_execute_schedules_frame
    (({ s with
        should_reload_ := false,
        playlist_manager_ := s.playlist_manager_.reload_schedules cfg fs hash }).emit
      .log_reloaded) mc steady_now now
  have hit : scheduler_loop_iteration s cfg fs hash mc steady_now now =
      check_and_execute_schedules
        (({ s with
            should_reload_ := false,
            playlist_manager_ := s.playlist_manager_.reload_schedules cfg fs hash }).emit
          .log_reloaded) mc steady_now now := by
    unfold scheduler_loop_iteration
    simp [hrun, hen, hrel]
  refine ⟨hit, ?_, ?_, ?_, fun _ => rfl⟩
  · rw [hit, hc]
    rfl
  · rw [hit, hc]
    rfl
  · rw [hit, hc]
    exact ⟨evs, rfl⟩

/-- C9, amended, at the concrete scenario. -/
theorem reload_request_served_witness :
    scheduler_loaded.running_ = true ∧ scheduler_loaded.enabled_ = true ∧
      scheduler_loaded.should_reload_ = true ∧
      (scheduler_loop_iteration scheduler_loaded cfg_one_file fs_present hash_len mc_ok
        1000000000 monday_0859).should_reload_ = false :=
  ⟨rfl, rfl, rfl,
    (reload_request_served scheduler_loaded cfg_one_file fs_present hash_len mc_ok 1000000000
      monday_0859 rfl rfl rfl).2.1⟩

/-! ## C10: the next item id after an evaluation -/

/-- The loop of `get_items_after_time` returns the ids collected so far followed by the ids
of the first `n` later slots, where `n` is at least one when a later slot exists, no shorter
collection of at least one slot had reached the bound, and a collection that leaves out a
later slot has reached it. -/
theorem items_after_time_loop_spec (minutes max_count : Int) (slots : List TimeSlot)
    (result : List String) :
    ∃ n, n ≤ (later_slots minutes slots).length ∧
      items_after_time_loop minutes max_count slots result =
        result ++ slot_ids ((later_slots minutes slots).take n) ∧
      (later_slots minutes slots ≠ [] → 0 < n) ∧
      (∀ k, 0 < k → k < n →
        ((result ++ slot_ids ((later_slots minutes slots).take k)).length : Int) <
          max_count % 18446744073709551616) ∧
      (n < (later_slots minutes slots).length →
        ((result ++ slot_ids ((later_slots minutes slots).take n)).length : Int) ≥
          max_count % 18446744073709551616) := by
  induction slots generalizing result with
  | nil => exact ⟨0, by simp [later_slots, items_after_time_loop, slot_ids]⟩
  | cons slot rest ih =>
    by_cases hl : slot.to_minutes > minutes
    · have hlater : later_slots minutes (slot :: rest) = slot :: later_slots minutes rest := by
        simp [later_slots, hl]
      by_cases hm : ((result ++ slot.item_ids).length : Int) ≥ max_count % 18446744073709551616
      · refine ⟨1, ?_, ?_, ?_, ?_, ?_⟩
        · rw [hlater]; simp
        · rw [hlater]
          simp only [items_after_time_loop, hl, if_true]
          rw [if_pos hm]
          simp [slot_ids]
        · intro _; exact Nat.one_pos
        · intro k hk hk'; omega
        · intro _
          rw [hlater]
          simpa [slot_ids] using hm
      · obtain ⟨n, hn, heq, _, hlt, hge⟩ := ih (result ++ slot.item_ids)
        refine ⟨n + 1, ?_, ?_, ?_, ?_, ?_⟩
        · rw [hlater]; simpa using hn
        · rw [hlater]
          simp only [items_after_time_loop, hl, if_true]
          rw [if_neg hm, heq]
          simp [slot_ids, List.take_succ_cons, List.append_assoc]
        · intro _; exact Nat.succ_pos n
        · intro k hk hk'
          rw [hlater]
          obtain ⟨j, rfl⟩ : ∃ j, k = j + 1 := ⟨k - 1, by omega⟩
          by_cases hj : j = 0
          · subst hj
            simpa [slot_ids] using lt_of_not_ge hm
          · have := hlt j (by omega) (by omega)
            simpa [slot_ids, List.take_succ_cons, List.append_assoc] using this
        · intro hlen
          rw [hlater] at hlen ⊢
          have := hge (by simpa using hlen)
          simpa [slot_ids, List.take_succ_cons, List.append_assoc] using this
    · have hlater : later_slots minutes (slot :: rest) = later_slots minutes rest := by
        simp [later_slots, hl]
      obtain ⟨n, hn, heq, hpos, hlt, hge⟩ := ih result
      refine ⟨n, ?_, ?_, ?_, ?_, ?_⟩
      · rw [hlater]; exact hn
      · rw [hlater]
        simp only [items_after_time_loop, hl, if_false, heq]
      · rw [hlater]; exact hpos
      · rw [hlater]; exact hlt
      · rw [hlater]; exact hge

theorem mem_slot_ids (slots : List TimeSlot) (id : String) :
    id ∈ slot_ids slots ↔ ∃ slot ∈ slots, id ∈ slot.item_ids := by
  unfold slot_ids
  simp only [List.mem_flatten, List.mem_map]
  constructor
  · rintro ⟨ids, ⟨slot, hs, rfl⟩, hid⟩
    exact ⟨slot, hs, hid⟩
  · rintro ⟨slot, hs, hid⟩
    exact ⟨slot.item_ids, ⟨slot, hs, rfl⟩, hid⟩

theorem mem_later_slots (minutes : Int) (slots : List TimeSlot) (slot : TimeSlot) :
    slot ∈ later_slots minutes slots ↔ slot ∈ slots ∧ minutes < slot.to_minutes := by
  unfold later_slots
  simp [List.mem_filter]

/-! ## C11: what `get_items_after_time` returns -/

/-- C11. On an ascending schedule and for every minute and every `max_count`:
`get_items_after_time` returns the ids of the first `n` slots that lie strictly after
`minutes`, in ascending slot order, with `n ≥ 1` when such a slot exists, so the result starts
with the ids of the earliest later slot; every returned id belongs to a slot after `minutes`;
the result is empty when no slot lies after `minutes`. For the single Monday 09:00 item it
returns the item at minute 480 and the empty list at minute 541. -/
theorem get_items_after_time_later (tt : TimeTrigger) (minutes max_count : Int)
    (hasc : tt.schedule_.Pairwise (fun a b => a.to_minutes < b.to_minutes)) :
    (∃ n, get_items_after_time tt minutes max_count =
        slot_ids ((later_slots minutes tt.schedule_).take n) ∧
      (later_slots minutes tt.schedule_ ≠ [] → 0 < n)) ∧
      (later_slots minutes tt.schedule_).Pairwise (fun a b => a.to_minutes < b.to_minutes) ∧
      (∀ first rest, later_slots minutes tt.schedule_ = first :: rest →
        (∀ slot ∈ tt.schedule_, minutes < slot.to_minutes →
          first.to_minutes ≤ slot.to_minutes) ∧
        ∃ tail, get_items_after_time tt minutes max_count = first.item_ids ++ tail) ∧
      (∀ id ∈ get_items_after_time tt minutes max_count,
        ∃ slot ∈ tt.schedule_, minutes < slot.to_minutes ∧ id ∈ slot.item_ids) ∧
      ((∀ slot ∈ tt.schedule_, slot.to_minutes ≤ minutes) →
        get_items_after_time tt minutes max_count = []) ∧
      get_items_after_time (rebuild_schedule tt_one_item monday_0900) 480 max_count =
        [item_monday_0900.id] ∧
      get_items_after_time (rebuild_schedule tt_one_item monday_0900) 541 max_count = [] := by
  obtain ⟨n, _, heq, hpos, _, _⟩ :=
    items_after_time_loop_spec minutes max_count tt.schedule_ []
  have heq' : get_items_after_time tt minutes max_count =
      slot_ids ((later_slots minutes tt.schedule_).take n) := by
    unfold get_items_after_time
    rw [heq, List.nil_append]
  have hsorted : (later_slots minutes tt.schedule_).Pairwise
      (fun a b => a.to_minutes < b.to_minutes) := by
    unfold later_slots
    exact hasc.filter _
  have hone : (rebuild_schedule tt_one_item monday_0900).schedule_ =
      [{ hour := 9, minute := 0, item_ids := ["cam_09:00_1"] }] := by decide
  refine ⟨⟨n, heq', hpos⟩, hsorted, ?_, ?_, ?_, ?_, ?_⟩
  · intro first rest hfr
    constructor
    · intro slot hslot hlt
      have hmem : slot ∈ later_slots minutes tt.schedule_ :=
        (mem_later_slots minutes tt.schedule_ slot).2 ⟨hslot, hlt⟩
      rw [hfr] at hmem hsorted
      rcases List.mem_cons.1 hmem with rfl | hmem
      · exact le_refl _
      · exact le_of_lt ((List.pairwise_cons.1 hsorted).1 slot hmem)
    · have hn : 0 < n := hpos (by rw [hfr]; simp)
      obtain ⟨j, rfl⟩ : ∃ j, n = j + 1 := ⟨n - 1, by omega⟩
      refine ⟨slot_ids (rest.take j), ?_⟩
      rw [heq', hfr]
      simp [slot_ids, List.take_succ_cons]
  · intro id hid
    rw [heq', mem_slot_ids] at hid
    obtain ⟨slot, hslot, hin⟩ := hid
    have := (mem_later_slots minutes tt.schedule_ slot).1 (List.mem_of_mem_take hslot)
    exact ⟨slot, this.1, this.2, hin⟩
  · intro hnone
    have hnil : later_slots minutes tt.schedule_ = [] := by
      rw [List.eq_nil_iff_forall_not_mem]
      intro slot hslot
      have := (mem_later_slots minutes tt.schedule_ slot).1 hslot
      have := hnone slot this.1
      omega
    rw [heq', hnil]
    simp [slot_ids]
  · unfold get_items_after_time
    rw [hone]
    simp [items_after_time_loop, TimeSlot.to_minutes, item_monday_0900]
  · unfold get_items_after_time
    rw [hone]
    simp [items_after_time_loop, TimeSlot.to_minutes]

/-- C11 at a concrete input: the schedule of the two 09:00 items, asked at minute 480. -/
theorem get_items_after_time_later_witness :
    (rebuild_schedule tt_two_items monday_0900).schedule_.Pairwise
        (fun a b => a.to_minutes < b.to_minutes) ∧
      ∀ id ∈ get_items_after_time (rebuild_schedule tt_two_items monday_0900) 480 1,
        ∃ slot ∈ (rebuild_schedule tt_two_items monday_0900).schedule_,
          480 < slot.to_minutes ∧ id ∈ slot.item_ids :=
  ⟨by decide,
    (get_items_after_time_later (rebuild_schedule tt_two_items monday_0900) 480 1
      (by decide)).2.2.2.1⟩

/-! ## C12: the bound `max_count` -/

/-- C12, as stated, fails: with the two items in the 09:00 slot, `get_items_after_time(480, 1)`
and `get_next_items` return two ids for `max_count = 1`. -/
theorem max_count_exceeded_counterexample :
    get_items_after_time (rebuild_schedule tt_two_items monday_0900) 480 1 =
        ["cam_09:00_1", "deck_09:00_2"] ∧
      ¬ (get_items_after_time (rebuild_schedule tt_two_items monday_0900) 480 1).length ≤ 1 ∧
      (get_next_items tt_two_items monday_0859).2.length = 2 := by
  decide

theorem slot_ids_take_succ_le (slots : List TimeSlot)
    (hone : ∀ slot ∈ slots, slot.item_ids.length ≤ 1) (j : Nat) :
    (slot_ids (slots.take (j + 1))).length ≤ (slot_ids (slots.take j)).length + 1 := by
  induction slots generalizing j with
  | nil => simp [slot_ids]
  | cons slot rest ih =>
    have hs : slot.item_ids.length ≤ 1 := hone slot (List.mem_cons_self _ _)
    have hr : ∀ s ∈ rest, s.item_ids.length ≤ 1 := fun s h => hone s (List.mem_cons_of_mem _ h)
    cases j with
    | zero =>
      simp only [slot_ids, List.take_succ_cons, List.take_zero, List.map_cons, List.map_nil,
        List.flatten_cons, List.flatten_nil, List.length_append, List.length_nil]
      omega
    | succ i =>
      have := ih hr i
      simp only [slot_ids, List.take_succ_cons, List.map_cons, List.flatten_cons,
        List.length_append] at this ⊢
      omega

/-- C12, amended. For `1 ≤ max_count` (an `int`), `get_items_after_time` collects whole later
slots and stops after the first slot with which the collection holds at least `max_count`
ids: every shorter collection holds fewer than `max_count` ids, a collection that leaves out
a later slot holds at least `max_count` ids, and when no slot holds more than one id the
returned list holds at most `max_count` ids. -/
theorem get_items_after_time_bound (tt : TimeTrigger) (minutes max_count : Int)
    (h1 : 1 ≤ max_count) (h2 : max_count ≤ 2147483647) :
    ∃ n, get_items_after_time tt minutes max_count =
        slot_ids ((later_slots minutes tt.schedule_).take n) ∧
      (∀ k, k < n →
        ((slot_ids ((later_slots minutes tt.schedule_).take k)).length : Int) < max_count) ∧
      (n < (later_slots minutes tt.schedule_).length →
        max_count ≤ ((get_items_after_time tt minutes max_count).length : Int)) ∧
      ((∀ slot ∈ tt.schedule_, slot.item_ids.length ≤ 1) →
        ((get_items_after_time tt minutes max_count).length : Int) ≤ max_count) := by
  obtain ⟨n, _, heq, _, hlt, hge⟩ :=
    items_after_time_loop_spec minutes max_count tt.schedule_ []
  have hmod : max_count % 18446744073709551616 = max_count := by omega
  rw [hmod] at hlt hge
  simp only [List.nil_append] at heq hlt hge
  have heq' : get_items_after_time tt minutes max_count =
      slot_ids ((later_slots minutes tt.schedule_).take n) := heq
  have hshort : ∀ k, k < n →
      ((slot_ids ((later_slots minutes tt.schedule_).take k)).length : Int) < max_count := by
    intro k hk
    by_cases hk0 : k = 0
    · subst hk0
      simp only [List.take_zero, slot_ids, List.map_nil, List.flatten_nil, List.length_nil]
      omega
    · exact hlt k (by omega) hk
  refine ⟨n, heq', hshort, ?_, ?_⟩
  · intro hlen
    rw [heq']
    exact hge hlen
  · intro hone
    rw [heq']
    have hone' : ∀ slot ∈ later_slots minutes tt.schedule_, slot.item_ids.length ≤ 1 :=
      fun slot hs => hone slot ((mem_later_slots minutes tt.schedule_ slot).1 hs).1
    by_cases hn : n = 0
    · subst hn
      simp only [List.take_zero, slot_ids, List.map_nil, List.flatten_nil, List.length_nil]
      omega
    · obtain ⟨j, rfl⟩ : ∃ j, n = j + 1 := ⟨n - 1, by omega⟩
      have hj := hshort j (by omega)
      have hle := slot_ids_take_succ_le (later_slots minutes tt.schedule_) hone' j
      omega

/-- C12, amended, at a concrete input: the single 09:00 item and `max_count = 1`. -/
theorem get_items_after_time_bound_witness :
    (1 : Int) ≤ 1 ∧ (1 : Int) ≤ 2147483647 ∧
      ∃ n, get_items_after_time (rebuild_schedule tt_one_item monday_0900) 480 1 =
          slot_ids ((later_slots 480 (rebuild_schedule tt_one_item monday_0900).schedule_).take
            n) ∧
        (∀ k, k < n →
          ((slot_ids ((later_slots 480
            (rebuild_schedule tt_one_item monday_0900).schedule_).take k)).length : Int) < 1) :=
  have h := get_items_after_time_bound (rebuild_schedule tt_one_item monday_0900) 480 1
    (by decide) (by decide)
  ⟨by decide, by decide, h.choose, h.choose_spec.1, h.choose_spec.2.1⟩

/-! ## Lemmas on the order of a rebuilt schedule -/

theorem rebuild_schedule_none (tt : TimeTrigger) (now : Tm)
    (hpm : tt.playlist_manager_ = none) : (rebuild_schedule tt now).schedule_ = [] := by
  unfold rebuild_schedule
  simp [hpm]

/-- Slots built from a key-sorted map with keys in `[0, 1440)` are ascending for
`TimeSlot::operator<`. -/
theorem build_slots_sorted (m : List (Int × List String))
    (hs : (m.map Prod.fst).Pairwise (· < ·)) (hr : ∀ k ∈ m.map Prod.fst, 0 ≤ k ∧ k < 1440) :
    (build_slots m).Pairwise TimeSlot.lt := by
  have h' : m.Pairwise (fun a b => 0 ≤ a.1 ∧ a.1 < b.1) :=
    (List.pairwise_map.1 hs).imp_of_mem
      (fun ha _ h => ⟨(hr _ (List.mem_map_of_mem Prod.fst ha)).1, h⟩)
  unfold build_slots
  refine List.Pairwise.map _ ?_ h'
  rintro ⟨k, xs⟩ ⟨k', xs'⟩ ⟨h0, hlt⟩
  simp only at h0 hlt
  unfold TimeSlot.lt
  simp only
  rw [Int.tdiv_eq_ediv h0 (by decide), Int.tdiv_eq_ediv (by omega : (0 : Int) ≤ k') (by decide),
    Int.tmod_eq_emod h0 (by decide), Int.tmod_eq_emod (by omega : (0 : Int) ≤ k') (by decide)]
  split <;> omega

/-- The sort at the end of `rebuild_schedule` finds the slots already in order. -/
theorem rebuild_schedule_eq (tt : TimeTrigger) (pm : PlaylistManager) (now : Tm)
    (hpm : tt.playlist_manager_ = some pm) :
    (rebuild_schedule tt now).schedule_ =
      build_slots (group_by_time (pm.get_items_for_day (get_current_day now))) := by
  unfold rebuild_schedule
  simp only [hpm]
  exact List.Sorted.insertionSort_eq
    (build_slots_sorted _ (group_by_time_sorted _) (group_by_time_keys_range _))

theorem build_slots_ascending (m : List (Int × List String))
    (hs : (m.map Prod.fst).Pairwise (· < ·)) :
    (build_slots m).Pairwise (fun a b => a.to_minutes < b.to_minutes) := by
  unfold build_slots
  refine List.Pairwise.map _ ?_ (List.pairwise_map.1 hs)
  rintro ⟨k, xs⟩ ⟨k', xs'⟩ hlt
  simp only at hlt
  rw [to_minutes_build, to_minutes_build]
  exact hlt

/-! ## C13: invariants of a rebuilt schedule -/

/-- C13. After `rebuild_schedule` the slot list is strictly ascending by `to_minutes`, two
slots with the same minute are the same slot, and every slot has `0 ≤ hour ≤ 23`,
`0 ≤ minute ≤ 59`, `to_minutes` in `[0, 1440)`, at least one id, and each of its ids is the id
of an item of the playlist manager whose time parses to the slot's minute. -/
theorem rebuild_schedule_invariants (tt : TimeTrigger) (now : Tm) :
    (rebuild_schedule tt now).schedule_.Pairwise (fun a b => a.to_minutes < b.to_minutes) ∧
      (∀ slot ∈ (rebuild_schedule tt now).schedule_,
        ∀ slot' ∈ (rebuild_schedule tt now).schedule_,
          slot.to_minutes = slot'.to_minutes → slot = slot') ∧
      ∀ slot ∈ (rebuild_schedule tt now).schedule_,
        0 ≤ slot.hour ∧ slot.hour ≤ 23 ∧ 0 ≤ slot.minute ∧ slot.minute ≤ 59 ∧
          0 ≤ slot.to_minutes ∧ slot.to_minutes < 1440 ∧ slot.item_ids ≠ [] ∧
          ∀ id ∈ slot.item_ids, ∀ pm, tt.playlist_manager_ = some pm →
            ∃ item ∈ pm.items_.map Prod.snd, item.id = id ∧
              time_string_to_minutes item.time = slot.to_minutes := by
  cases hpm : tt.playlist_manager_ with
  | none =>
    rw [rebuild_schedule_none tt now hpm]
    simp
  | some pm =>
    refine ⟨?_, ?_, ?_⟩
    · rw [rebuild_schedule_eq tt pm now hpm]
      exact build_slots_ascending _ (group_by_time_sorted _)
    · intro slot hslot slot' hslot' hmin
      exact rebuild_slot_minute_unique tt pm now hpm slot slot' hslot hslot' hmin
    · intro slot hslot
      have hne := rebuild_slot_nonempty tt pm now hpm slot hslot
      obtain ⟨k, xs, hk, rfl⟩ := (mem_rebuild_schedule tt pm now hpm slot).1 hslot
      have hrange := group_by_time_keys_range _ k (List.mem_map_of_mem Prod.fst hk)
      rw [to_minutes_build]
      simp only
      rw [Int.tdiv_eq_ediv hrange.1 (by decide), Int.tmod_eq_emod hrange.1 (by decide)]
      refine ⟨by omega, by omega, by omega, by omega, hrange.1, hrange.2, hne, ?_⟩
      intro id hid pm' hpm'
      have hpp : pm = pm' := Option.some.inj hpm'
      subst hpp
      obtain ⟨item, hmem, hi, _, _, _, hm⟩ := rebuild_slot_item tt pm now hpm
        { hour := k.tdiv 60, minute := k.tmod 60, item_ids := xs } hslot id hid
      rw [to_minutes_build] at hm
      exact ⟨item, hmem, hi, hm.symm⟩

/-- C13 at the schedule of the two 09:00 items: its slot has hour 9, minute 0 and two ids. -/
theorem rebuild_schedule_invariants_witness :
    ({ hour := 9, minute := 0, item_ids := ["cam_09:00_1", "deck_09:00_2"] } : TimeSlot) ∈
        (rebuild_schedule tt_two_items monday_0900).schedule_ ∧
      (rebuild_schedule tt_two_items monday_0900).schedule_.Pairwise
        (fun a b => a.to_minutes < b.to_minutes) ∧
      ∀ slot ∈ (rebuild_schedule tt_two_items monday_0900).schedule_,
        0 ≤ slot.hour ∧ slot.hour ≤ 23 ∧ 0 ≤ slot.minute ∧ slot.minute ≤ 59 ∧
          0 ≤ slot.to_minutes ∧ slot.to_minutes < 1440 ∧ slot.item_ids ≠ [] ∧
          ∀ id ∈ slot.item_ids, ∀ pm, tt_two_items.playlist_manager_ = some pm →
            ∃ item ∈ pm.items_.map Prod.snd, item.id = id ∧
              time_string_to_minutes item.time = slot.to_minutes :=
  ⟨by decide, (rebuild_schedule_invariants tt_two_items monday_0900).1,
    (rebuild_schedule_invariants tt_two_items monday_0900).2.2⟩

/-! ## Lemmas on the order inside a slot -/

theorem map_find_none_of_lt {α : Type} (m : List (Int × α)) (k : Int)
    (h : ∀ k' ∈ m.map Prod.fst, k < k') : map_find k m = none := by
  induction m with
  | nil => rfl
  | cons p rest ih =>
    obtain ⟨k0, v0⟩ := p
    have h0 : k < k0 := h k0 (by simp)
    unfold map_find
    rw [if_neg (by omega)]
    exact ih (fun k' hk' => h k' (by simp at hk' ⊢; exact Or.inr hk'))

/-- The ids stored under `k'` after `m[k].push_back(x)` on a key-sorted map. -/
theorem map_find_push_back (k : Int) (x : String) (m : List (Int × List String))
    (hs : (m.map Prod.fst).Pairwise (· < ·)) (k' : Int) :
    (map_find k' (map_push_back k x m)).getD [] =
      (map_find k' m).getD [] ++ (if k' = k then [x] else []) := by
  induction m with
  | nil =>
    by_cases h : k' = k <;> simp [map_push_back, map_find, h]
  | cons p rest ih =>
    obtain ⟨k0, xs0⟩ := p
    simp only [List.map_cons, List.pairwise_cons] at hs
    unfold map_push_back
    by_cases h1 : k < k0
    · simp only [h1, if_true]
      by_cases h : k' = k
      · subst h
        have hnone : map_find k' ((k0, xs0) :: rest) = none :=
          map_find_none_of_lt _ k' (by
            intro a ha
            simp only [List.map_cons, List.mem_cons] at ha
            rcases ha with rfl | ha
            · exact h1
            · exact lt_trans h1 (hs.1 a ha))
        rw [hnone]
        simp [map_find]
      · rw [if_neg h, List.append_nil]
        conv_lhs => unfold map_find
        rw [if_neg h]
    · by_cases h2 : k = k0
      · subst h2
        simp only [lt_self_iff_false, if_false, if_true]
        by_cases h : k' = k
        · subst h
          simp [map_find]
        · simp [map_find, h]
      · simp only [h1, h2, if_false]
        by_cases h0 : k' = k0
        · subst h0
          have hne : ¬ k' = k := fun h => h2 h.symm
          simp [map_find, hne]
        · have := ih hs.2
          simp only [map_find, h0, if_false]
          exact this

theorem map_find_of_mem {α : Type} (m : List (Int × α))
    (hs : (m.map Prod.fst).Pairwise (· < ·)) (k : Int) (v : α) (h : (k, v) ∈ m) :
    map_find k m = some v := by
  induction m with
  | nil => simp at h
  | cons p rest ih =>
    obtain ⟨k0, v0⟩ := p
    simp only [List.map_cons, List.pairwise_cons] at hs
    simp only [List.mem_cons, Prod.mk.injEq] at h
    unfold map_find
    rcases h with ⟨rfl, rfl⟩ | h
    · simp
    · have hlt : k0 < k := hs.1 k (List.mem_map.2 ⟨(k, v), h, rfl⟩)
      rw [if_neg (by omega)]
      exact ih hs.2 h

theorem group_fold_find (items : List ScheduledItem) (acc : List (Int × List String))
    (hs : (acc.map Prod.fst).Pairwise (· < ·)) (k : Int) :
    (map_find k (items.foldl
        (fun time_to_items item =>
          let time_minutes := time_string_to_minutes item.time
          if time_minutes ≥ 0 ∧ time_minutes < 24 * 60 then
            map_push_back time_minutes item.id time_to_items
          else time_to_items) acc)).getD [] =
      (map_find k acc).getD [] ++
        (items.filter (fun item =>
          decide (time_string_to_minutes item.time = k ∧ 0 ≤ k ∧ k < 1440))).map
            ScheduledItem.id := by
  induction items generalizing acc with
  | nil => simp
  | cons it rest ih =>
    rw [List.foldl_cons]
    by_cases hr : time_string_to_minutes it.time ≥ 0 ∧ time_string_to_minutes it.time < 24 * 60
    · simp only [hr, and_self, if_true]
      rw [ih _ (map_push_back_sorted _ _ _ hs), map_find_push_back _ _ _ hs]
      by_cases hk : k = time_string_to_minutes it.time
      · have hc : time_string_to_minutes it.time = k ∧ 0 ≤ k ∧ k < 1440 :=
          ⟨hk.symm, by omega, by omega⟩
        rw [List.filter_cons, if_pos (decide_eq_true hc), if_pos hk]
        simp
      · have hc : ¬ (time_string_to_minutes it.time = k ∧ 0 ≤ k ∧ k < 1440) :=
          fun h => hk h.1.symm
        rw [List.filter_cons, decide_eq_false hc, if_neg hk]
        simp
    · simp only [hr, if_false]
      rw [ih _ hs]
      have hc : ¬ (time_string_to_minutes it.time = k ∧ 0 ≤ k ∧ k < 1440) := by
        rintro ⟨h1, h2, h3⟩
        exact hr ⟨by omega, by omega⟩
      rw [List.filter_cons, decide_eq_false hc]
      simp

/-! ## C14: the order of the ids inside a slot -/

/-- C14, as stated, fails: the loading loop stores `item_z` and then `item_a`; the map
`items_` is ordered by id, and the 09:00 slot (and `get_current_items`) lists the id of
`item_a` before the id of `item_z`, the reverse of the order in which they were loaded. -/
theorem slot_order_counterexample :
    [item_z, item_a].map (generate_item_id hash_len) = ["z_09:00_4", "a_09:00_5"] ∧
      add_items hash_len [item_z, item_a] pm_empty.items_ = pm_z_then_a.items_ ∧
      (rebuild_schedule tt_z_then_a monday_0900).schedule_ =
        [{ hour := 9, minute := 0, item_ids := ["a_09:00_5", "z_09:00_4"] }] ∧
      (get_current_items tt_z_then_a monday_0900).2 = ["a_09:00_5", "z_09:00_4"] ∧
      (get_current_items tt_z_then_a monday_0900).2 ≠
        [item_z, item_a].map (generate_item_id hash_len) := by
  have hz : generate_item_id hash_len item_z = "z_09:00_4" := by decide
  have ha : generate_item_id hash_len item_a = "a_09:00_5" := by decide
  have hlt : ("a_09:00_5" : String) < "z_09:00_4" := String.lt_iff_toList_lt.2 (by decide)
  refine ⟨by decide, ?_, by decide, by decide, by decide⟩
  simp only [add_items, List.foldl, hz, ha, pm_empty, map_insert, hlt, if_true, pm_z_then_a]

/-- C14, amended. The ids inside each slot of the built schedule appear in the order in which
`get_items_for_day` lists their items, which is the iteration order of the map `items_`: when
the map is keyed by item id (keys strictly ascending, each key the id of its item), the ids of
every slot are strictly ascending as strings, whatever the order of loading. -/
theorem slot_order_is_map_order (tt : TimeTrigger) (pm : PlaylistManager) (now : Tm)
    (hpm : tt.playlist_manager_ = some pm) (slot : TimeSlot)
    (hslot : slot ∈ (rebuild_schedule tt now).schedule_) :
    slot.item_ids =
        ((pm.get_items_for_day (get_current_day now)).filter
          (fun item => decide (time_string_to_minutes item.time = slot.to_minutes))).map
            ScheduledItem.id ∧
      ((pm.items_.map Prod.fst).Pairwise (· < ·) → (∀ p ∈ pm.items_, p.1 = p.2.id) →
        slot.item_ids.Pairwise (· < ·)) := by
  obtain ⟨k, xs, hk, rfl⟩ := (mem_rebuild_schedule tt pm now hpm slot).1 hslot
  have hrange := group_by_time_keys_range _ k (List.mem_map_of_mem Prod.fst hk)
  have hfind := map_find_of_mem _ (group_by_time_sorted _) k xs hk
  have hfold := group_fold_find (pm.get_items_for_day (get_current_day now)) []
    (by simp) k
  have hxs : xs = ((pm.get_items_for_day (get_current_day now)).filter
      (fun item => decide (time_string_to_minutes item.time = k))).map ScheduledItem.id := by
    unfold group_by_time at hfind
    rw [hfind] at hfold
    simp only [Option.getD_some, map_find, Option.getD_none, List.nil_append] at hfold
    rw [hfold]
    congr 1
    apply List.filter_congr
    intro item _
    simp [hrange.1, hrange.2]
  rw [to_minutes_build]
  refine ⟨hxs, ?_⟩
  intro hsorted hkey
  simp only
  rw [hxs]
  have hvals : (pm.items_.map Prod.snd).Pairwise (fun a b => a.id < b.id) := by
    rw [List.pairwise_map] at hsorted ⊢
    exact hsorted.imp_of_mem (fun ha hb h => by rw [← hkey _ ha, ← hkey _ hb]; exact h)
  unfold PlaylistManager.get_items_for_day
  rw [List.pairwise_map]
  exact (hvals.filter _).filter _

/-- C14, amended, at the concrete scenario of the two items loaded as `z` then `a`. -/
theorem slot_order_is_map_order_witness :
    tt_z_then_a.playlist_manager_ = some pm_z_then_a ∧
      ({ hour := 9, minute := 0, item_ids := ["a_09:00_5", "z_09:00_4"] } : TimeSlot) ∈
        (rebuild_schedule tt_z_then_a monday_0900).schedule_ ∧
      (["a_09:00_5", "z_09:00_4"] : List String) =
        ((pm_z_then_a.get_items_for_day (get_current_day monday_0900)).filter
          (fun item => decide (time_string_to_minutes item.time =
            TimeSlot.to_minutes
              { hour := 9, minute := 0, item_ids := ["a_09:00_5", "z_09:00_4"] }))).map
            ScheduledItem.id :=
  ⟨rfl, by decide,
    (slot_order_is_map_order tt_z_then_a pm_z_then_a monday_0900 rfl
      { hour := 9, minute := 0, item_ids := ["a_09:00_5", "z_09:00_4"] } (by decide)).1⟩

/-! ## C15: `get_status` -/

/-- C15. The function `get_status` (a read of `running_` and `enabled_` that returns a string
and nothing else) returns `"Stopped"` exactly when `running_` is false, whatever `enabled_`
is, `"Disabled"` exactly when `running_` is true and `enabled_` is false, `"Running"` exactly
when both are true, and no other value. -/
theorem get_status_cases (s : SchedulerCore) :
    (s.get_status = "Stopped" ↔ s.running_ = false) ∧
      (s.get_status = "Disabled" ↔ s.running_ = true ∧ s.enabled_ = false) ∧
      (s.get_status = "Running" ↔ s.running_ = true ∧ s.enabled_ = true) ∧
      (s.get_status = "Stopped" ∨ s.get_status = "Disabled" ∨ s.get_status = "Running") := by
  unfold SchedulerCore.get_status
  cases s.running_ <;> cases s.enabled_ <;> simp

/-! ## C16: a disabled scheduler -/

/-- C17, as stated, fails: a reload is requested half a second after the last check (check
interval one second); the iteration performs the reload, yet the evaluation is skipped:
nothing but the reload is traced, `next_item_id_` and `last_check_time_` are as before. An
evaluation would have set `next_item_id_` and the time stamp. -/
theorem reload_does_not_bypass_guard_counterexample :
    scheduler_loaded.should_reload_ = true ∧
      rate_guard_skips scheduler_loaded half_second = true ∧
      (scheduler_loop_iteration scheduler_loaded cfg_one_file fs_present hash_len mc_ok
        half_second monday_0859).trace = [Event.log_reloaded] ∧
      (scheduler_loop_iteration scheduler_loaded cfg_one_file fs_present hash_len mc_ok
        half_second monday_0859).next_item_id_ = scheduler_loaded.next_item_id_ ∧
      (scheduler_loop_iteration scheduler_loaded cfg_one_file fs_present hash_len mc_ok
        half_second monday_0859).last_check_time_ = scheduler_loaded.last_check_time_ ∧
      (scheduler_loop_iteration scheduler_loaded cfg_one_file fs_present hash_len mc_ok
        1000000000 monday_0859).next_item_id_ = "None" ∧
      (scheduler_loop_iteration scheduler_loaded cfg_one_file fs_present hash_len mc_ok
        1000000000 monday_0859).last_check_time_ = 1000000000 := by
  decide

theorem scheduler_loop_iteration_enabled (s : SchedulerCore) (cfg : Config)
    (fs : String → FileState) (hash : String → Nat) (mc : MediaController) (steady_now : Int)
    (now : Tm) (hrun : s.running_ = true) (hen : s.enabled_ = true) :
    scheduler_loop_iteration s cfg fs hash mc steady_now now =
      check_and_execute_schedules (after_reload s cfg fs hash) mc steady_now now := by
  unfold scheduler_loop_iteration after_reload
  simp [hrun, hen]

theorem rate_guard_after_reload (s : SchedulerCore) (cfg : Config) (fs : String → FileState)
    (hash : String → Nat) (steady_now : Int) :
    rate_guard_skips (after_reload s cfg fs hash) steady_now = rate_guard_skips s steady_now := by
  unfold after_reload
  split <;> rfl

theorem check_and_execute_schedules_skip (s : SchedulerCore) (mc : MediaController)
    (steady_now : Int) (now : Tm) (h : rate_guard_skips s steady_now = true) :
    check_and_execute_schedules s mc steady_now now = s := by
  unfold check_and_execute_schedules
  simp [h]

theorem check_and_execute_schedules_pass (s : SchedulerCore) (mc : MediaController)
    (steady_now : Int) (now : Tm) (h : rate_guard_skips s steady_now = false) :
    check_and_execute_schedules s mc steady_now now =
      evaluate_items
        { s with
          last_check_time_ := steady_now,
          time_trigger_ := (get_next_items (get_current_items s.time_trigger_ now).1 now).1 }
        mc (get_current_items s.time_trigger_ now).2
        (get_next_items (get_current_items s.time_trigger_ now).1 now).2 := by
  unfold check_and_execute_schedules
  simp [h]

/-- C17, amended. In a running, enabled scheduler the evaluation of a loop iteration is
skipped exactly when fewer than `check_interval_seconds_` whole seconds have elapsed since
`last_check_time_`, whether or not the iteration has performed a requested reload. When it is
skipped the iteration changes nothing beyond the reload (no actuator call, `current_item_id_`,
`next_item_id_` and `last_check_time_` unchanged); when it is not skipped the iteration is
the evaluation of the lists returned by the time trigger and sets `last_check_time_` to the
current reading. -/
theorem rate_guard_iteration (s : SchedulerCore) (cfg : Config) (fs : String → FileState)
    (hash : String → Nat) (mc : MediaController) (steady_now : Int) (now : Tm)
    (hrun : s.running_ = true) (hen : s.enabled_ = true) :
    (rate_guard_skips s steady_now = true ↔
        (steady_now - s.last_check_time_).tdiv 1000000000 < s.check_interval_seconds_) ∧
      (rate_guard_skips s steady_now = true →
        scheduler_loop_iteration s cfg fs hash mc steady_now now = after_reload s cfg fs hash ∧
        (after_reload s cfg fs hash).current_item_id_ = s.current_item_id_ ∧
        (after_reload s cfg fs hash).next_item_id_ = s.next_item_id_ ∧
        (after_reload s cfg fs hash).last_check_time_ = s.last_check_time_ ∧
        ∀ e ∈ (after_reload s cfg fs hash).trace, e ∈ s.trace ∨ e = Event.log_reloaded) ∧
      (rate_guard_skips s steady_now = false →
        (scheduler_loop_iteration s cfg fs hash mc steady_now now).last_check_time_ =
            steady_now ∧
          scheduler_loop_iteration s cfg fs hash mc steady_now now =
            evaluate_items
              { after_reload s cfg fs hash with
                last_check_time_ := steady_now,
                time_trigger_ :=
                  (get_next_items (get_current_items s.time_trigger_ now).1 now).1 }
              mc (get_current_items s.time_trigger_ now).2
              (get_next_items (get_current_items s.time_trigger_ now).1 now).2) := by
  have htt : (after_reload s cfg fs hash).time_trigger_ = s.time_trigger_ := by
    unfold after_reload
    split <;> rfl
  refine ⟨?_, ?_, ?_⟩
  · unfold rate_guard_skips steady_ticks_per_second
    simp
  · intro hskip
    rw [scheduler_loop_iteration_enabled s cfg fs hash mc steady_now now hrun hen,
      check_and_execute_schedules_skip _ mc steady_now now
        ((rate_guard_after_reload s cfg fs hash steady_now).trans hskip)]
    refine ⟨rfl, ?_, ?_, ?_, ?_⟩
    · unfold after_reload
      split <;> rfl
    · unfold after_reload
      split <;> rfl
    · unfold after_reload
      split <;> rfl
    · intro e he
      unfold after_reload at he
      split at he
      · simp only [SchedulerCore.emit, List.mem_append, List.mem_singleton] at he
        exact he
      · exact Or.inl he
  · intro hpass
    have hit := check_and_execute_schedules_pass (after_reload s cfg fs hash) mc steady_now now
      ((rate_guard_after_reload s cfg fs hash steady_now).trans hpass)
    rw [htt] at hit
    rw [scheduler_loop_iteration_enabled s cfg fs hash mc steady_now now hrun hen, hit]
    refine ⟨?_, rfl⟩
    obtain ⟨cur, evs, he⟩ := evaluate_items_frame
      { after_reload s cfg fs hash with
        last_check_time_ := steady_now,
        time_trigger_ := (get_next_items (get_current_items s.time_trigger_ now).1 now).1 }
      mc (get_current_items s.time_trigger_ now).2
      (get_next_items (get_current_items s.time_trigger_ now).1 now).2
    rw [he]

/-- C17, amended, at the concrete scheduler half a second after its last check. -/
theorem rate_guard_iteration_witness :
    scheduler_two_items.running_ = true ∧ scheduler_two_items.enabled_ = true ∧
      rate_guard_skips scheduler_two_items half_second = true ∧
      scheduler_loop_iteration scheduler_two_items cfg_one_file fs_present hash_len mc_ok
        half_second monday_0900 = after_reload scheduler_two_items cfg_one_file fs_present
          hash_len :=
  ⟨rfl, rfl, by decide,
    ((rate_guard_iteration scheduler_two_items cfg_one_file fs_present hash_len mc_ok
      half_second monday_0900 rfl rfl).2.1 (by decide)).1⟩

/-! ## C18: a failing item -/

theorem execute_scheduled_item_events (s : SchedulerCore) (mc : MediaController)
    (item_id : String) :
    execute_scheduled_item s mc item_id =
      { s with trace := s.trace ++ item_events s.playlist_manager_ mc item_id } := by
  unfold execute_scheduled_item item_events SchedulerCore.emit
  by_cases h : item_id = "idle"
  · simp only [h, if_true]
    cases mc.play_idle_content <;> simp
  · simp only [h, if_false]
    cases s.playlist_manager_.get_item item_id with
    | none => simp
    | some item =>
      simp only
      cases mc.execute_item item <;> simp

theorem execute_current_items_events (s : SchedulerCore) (mc : MediaController)
    (items : List String) :
    execute_current_items s mc items =
      { s with
        current_item_id_ := items.getLast?.getD s.current_item_id_,
        trace := s.trace ++
          (fired_ids s.current_item_id_ items).flatMap
            (item_events s.playlist_manager_ mc) } := by
  induction items generalizing s with
  | nil => simp [execute_current_items, fired_ids]
  | cons item_id rest ih =>
    unfold execute_current_items fired_ids
    by_cases h : s.current_item_id_ ≠ item_id
    · rw [if_pos h, if_pos h, ih, execute_scheduled_item_events]
      cases rest with
      | nil => simp
      | cons a l =>
        simp [List.getLast?_cons_cons, List.getLast?_eq_getLast _ (List.cons_ne_nil a l)]
    · rw [if_neg h, if_neg h, ih]
      have h' : s.current_item_id_ = item_id := by simpa using h
      cases rest with
      | nil => simp [h']
      | cons a l => simp [List.getLast?_cons_cons]

/-- C18. The function `execute_scheduled_item` always returns, whatever the lookup and the
media controller answer (item not found, `execute_item` returning false or throwing), and
changes nothing but the trace. The loop over `current_items` enters
`execute_scheduled_item` for the ids selected by the debounce test alone, and each of them
contributes its own events; which ids are entered and the final `current_item_id_` do not
depend on the playlist manager or on the media controller, so the ids after a failing one
are processed as after a succeeding one. The same holds for an evaluated tick with a
non-empty id list. -/
theorem failing_item_does_not_stop_loop (s : SchedulerCore) (mc : MediaController)
    (items next_items : List String) :
    (∀ item_id, execute_scheduled_item s mc item_id =
        { s with trace := s.trace ++ item_events s.playlist_manager_ mc item_id }) ∧
      execute_current_items s mc items =
        { s with
          current_item_id_ := items.getLast?.getD s.current_item_id_,
          trace := s.trace ++
            (fired_ids s.current_item_id_ items).flatMap
              (item_events s.playlist_manager_ mc) } ∧
      (∀ item_id ∈ fired_ids s.current_item_id_ items,
        Event.log_executing item_id ∈ item_events s.playlist_manager_ mc item_id) ∧
      (∀ pm' mc',
        (execute_current_items { s with playlist_manager_ := pm' } mc' items).current_item_id_ =
            (execute_current_items s mc items).current_item_id_ ∧
          (execute_current_items { s with playlist_manager_ := pm' } mc' items).trace =
            s.trace ++ (fired_ids s.current_item_id_ items).flatMap (item_events pm' mc')) ∧
      (items ≠ [] →
        evaluate_items s mc items next_items =
          { s with
            next_item_id_ := next_or_none next_items,
            current_item_id_ := items.getLast?.getD s.current_item_id_,
            trace := s.trace ++
              (fired_ids s.current_item_id_ items).flatMap
                (item_events s.playlist_manager_ mc) }) := by
  refine ⟨fun item_id => execute_scheduled_item_events s mc item_id,
    execute_current_items_events s mc items, ?_, ?_, ?_⟩
  · intro item_id _
    unfold item_events
    split
    · split <;> simp
    · split
      · simp
      · split <;> simp
  · intro pm' mc'
    rw [execute_current_items_events, execute_current_items_events]
    exact ⟨rfl, rfl⟩
  · intro hne
    unfold evaluate_items
    have he : items.isEmpty = false := by
      cases items with
      | nil => exact absurd rfl hne
      | cons a l => rfl
    simp only [he, Bool.false_eq_true, if_false]
    rw [execute_current_items_events]

/-- C18 at a concrete input: the first id is not known to the playlist manager, the second
is; both are entered, and the second is executed. -/
theorem failing_item_does_not_stop_loop_witness :
    scheduler_two_items.playlist_manager_.get_item "ghost" = none ∧
      fired_ids scheduler_two_items.current_item_id_ ["ghost", "cam_09:00_1"] =
        ["ghost", "cam_09:00_1"] ∧
      (execute_current_items scheduler_two_items mc_ok ["ghost", "cam_09:00_1"]).trace =
        scheduler_two_items.trace ++
          (fired_ids scheduler_two_items.current_item_id_ ["ghost", "cam_09:00_1"]).flatMap
            (item_events scheduler_two_items.playlist_manager_ mc_ok) ∧
      (execute_current_items scheduler_two_items mc_ok ["ghost", "cam_09:00_1"]).trace =
        [Event.log_executing "ghost", Event.log_not_found "ghost",
          Event.log_executing "cam_09:00_1", Event.execute_item item_monday_0900,
          Event.log_success "cam_09:00_1"] :=
  ⟨by decide, by decide,
    congrArg SchedulerCore.trace
      (failing_item_does_not_stop_loop scheduler_two_items mc_ok ["ghost", "cam_09:00_1"]
        []).2.1,
    by decide⟩

/-! ## C19: start and stop -/

/-- C19. The call `start()` on a stopped scheduler makes `is_running()` true and `stop()` on a
running one makes it false; `start()` on a running scheduler and `stop()` on a stopped one
leave the whole state unchanged, `stop()` is idempotent, and neither changes `enabled_`. -/
theorem start_stop_lifecycle (s : SchedulerCore) :
    (s.is_running = false → s.start.is_running = true) ∧
      (s.is_running = true → s.stop.is_running = false) ∧
      (s.is_running = true → s.start = s) ∧
      (s.is_running = false → s.stop = s) ∧
      s.stop.stop = s.stop ∧ s.start.start = s.start ∧
      s.start.is_enabled = s.is_enabled ∧ s.stop.is_enabled = s.is_enabled := by
  unfold SchedulerCore.start SchedulerCore.stop SchedulerCore.is_running
    SchedulerCore.is_enabled
  cases h : s.running_ <;> simp [h]

/-- C19 at the concrete running scheduler. -/
theorem start_stop_lifecycle_witness :
    scheduler_two_items.is_running = true ∧ scheduler_two_items.stop.is_running = false ∧
      scheduler_two_items.start = scheduler_two_items ∧
      scheduler_two_items.stop.start.is_running = true :=
  ⟨rfl, (start_stop_lifecycle scheduler_two_items).2.1 rfl,
    (start_stop_lifecycle scheduler_two_items).2.2.1 rfl,
    (start_stop_lifecycle scheduler_two_items.stop).1 rfl⟩

/-! ## C20: `toggle_enabled` -/

/-- C20 on the code: called with the mutex free, `save()` alone acquires it and returns;
`Config::set_enabled` acquires the mutex and then calls `save()`, whose lock guard acquires
the held mutex, so for every configuration and value it ends in the error branch. Hence for
every scheduler `toggle_enabled` negates `enabled_`, leaves `running_` and does not return:
there is no configuration afterwards whose `is_enabled()` could be read, and no second call
that follows the first. -/
theorem toggle_enabled_relocks_config_mutex (s : SchedulerCore) (cfg : Config)
    (enabled : Bool) :
    cfg.save false = some (cfg, false) ∧
      cfg.save true = none ∧
      cfg.set_enabled false enabled = none ∧
      (s.toggle_enabled cfg).2 = none ∧
      (s.toggle_enabled cfg).1.is_enabled = (!s.is_enabled) ∧
      (s.toggle_enabled cfg).1.is_running = s.is_running := by
  refine ⟨rfl, rfl, rfl, rfl, rfl, rfl⟩

/-! ## C21: who writes the current and next item ids -/

/-- C21. None of `toggle_enabled`, `reload_schedules`, `force_check`, `start`, `stop` changes
`current_item_id_` or `next_item_id_` (the status reads `get_status`, `get_current_item`,
`get_next_item` return a string and no state); the reload block of the loop and
`execute_scheduled_item` do not change them either, and a loop iteration either returns the
state as it is or is `check_and_execute_schedules` applied after the reload block. -/
theorem control_operations_frame (s : SchedulerCore) (cfg : Config) :
    ((s.toggle_enabled cfg).1.current_item_id_ = s.current_item_id_ ∧
        (s.toggle_enabled cfg).1.next_item_id_ = s.next_item_id_) ∧
      (s.reload_schedules.current_item_id_ = s.current_item_id_ ∧
        s.reload_schedules.next_item_id_ = s.next_item_id_) ∧
      (s.force_check.current_item_id_ = s.current_item_id_ ∧
        s.force_check.next_item_id_ = s.next_item_id_) ∧
      (s.start.current_item_id_ = s.current_item_id_ ∧
        s.start.next_item_id_ = s.next_item_id_) ∧
      (s.stop.current_item_id_ = s.current_item_id_ ∧
        s.stop.next_item_id_ = s.next_item_id_) ∧
      (s.get_current_item = s.current_item_id_ ∧ s.get_next_item = s.next_item_id_) ∧
      (∀ fs hash, (after_reload s cfg fs hash).current_item_id_ = s.current_item_id_ ∧
        (after_reload s cfg fs hash).next_item_id_ = s.next_item_id_) ∧
      (∀ mc item_id,
        (execute_scheduled_item s mc item_id).current_item_id_ = s.current_item_id_ ∧
        (execute_scheduled_item s mc item_id).next_item_id_ = s.next_item_id_) ∧
      (∀ fs hash mc steady_now now,
        scheduler_loop_iteration s cfg fs hash mc steady_now now = s ∨
        scheduler_loop_iteration s cfg fs hash mc steady_now now =
          check_and_execute_schedules (after_reload s cfg fs hash) mc steady_now now) := by
  refine ⟨⟨rfl, rfl⟩, ⟨rfl, rfl⟩, ⟨rfl, rfl⟩, ?_, ?_, ⟨rfl, rfl⟩, ?_, ?_, ?_⟩
  · unfold SchedulerCore.start
    split <;> exact ⟨rfl, rfl⟩
  · unfold SchedulerCore.stop
    split <;> exact ⟨rfl, rfl⟩
  · intro fs hash
    unfold after_reload
    split <;> exact ⟨rfl, rfl⟩
  · intro mc item_id
    obtain ⟨evs, h⟩ := execute_scheduled_item_frame s mc item_id
    rw [h]
    exact ⟨rfl, rfl⟩
  · intro fs hash mc steady_now now
    by_cases hrun : s.running_ = true
    · by_cases hen : s.enabled_ = true
      · exact Or.inr (scheduler_loop_iteration_enabled s cfg fs hash mc steady_now now hrun hen)
      · left
        simp [scheduler_loop_iteration, hrun, hen]
    · left
      simp [scheduler_loop_iteration, hrun]

/-! ## C25: debounce of a single item -/

theorem item_events_count (pm : PlaylistManager) (mc : MediaController) (item_id : String) :
    (item_events pm mc item_id).count (Event.log_executing item_id) = 1 := by
  unfold item_events
  split
  · split <;> simp [List.count_cons]
  · split
    · simp [List.count_cons]
    · split <;> simp [List.count_cons]

theorem evaluate_items_single (s : SchedulerCore) (mc : MediaController) (id : String)
    (next_items : List String) :
    (evaluate_items s mc [id] next_items).current_item_id_ = id ∧
      (evaluate_items s mc [id] next_items).trace =
        s.trace ++ (if s.current_item_id_ = id then []
          else item_events s.playlist_manager_ mc id) := by
  unfold evaluate_items
  simp only [List.isEmpty_cons, Bool.false_eq_true, if_false]
  rw [execute_current_items_events]
  by_cases h : s.current_item_id_ = id
  · simp [fired_ids, h]
  · simp [fired_ids, h]

theorem run_ticks_single_quiet (s : SchedulerCore) (id : String) (rest : List Tick)
    (hs : s.current_item_id_ = id) (hrest : ∀ t ∈ rest, t.current_items = [id]) :
    (run_ticks s rest).trace = s.trace ∧ (run_ticks s rest).current_item_id_ = id := by
  induction rest generalizing s with
  | nil => exact ⟨rfl, hs⟩
  | cons t rest ih =>
    unfold run_ticks
    rw [hrest t (List.mem_cons_self _ _)]
    have h1 := evaluate_items_single s t.mc id t.next_items
    have := ih (evaluate_items s t.mc [id] t.next_items) h1.1
      (fun u hu => hrest u (List.mem_cons_of_mem _ hu))
    refine ⟨this.1.trans ?_, this.2⟩
    rw [h1.2, if_pos hs, List.append_nil]

/-- C25. When the time trigger returns the same one-element list `[id]` on consecutive
evaluated ticks, `execute_scheduled_item(id)` is entered on the first of them exactly once if
`id` was not already the current item (and not at all if it was), and the later ticks of the
run add nothing to the trace. After every evaluated tick with a non-empty id list
`current_item_id_` is the last id of that list. -/
theorem single_item_debounce (s : SchedulerCore) (id : String) (t1 : Tick) (rest : List Tick)
    (h1 : t1.current_items = [id]) (hrest : ∀ t ∈ rest, t.current_items = [id]) :
    invocations id (run_ticks s [t1]).trace =
        invocations id s.trace + (if s.current_item_id_ = id then 0 else 1) ∧
      (run_ticks s (t1 :: rest)).trace = (run_ticks s [t1]).trace ∧
      invocations id (run_ticks s (t1 :: rest)).trace =
        invocations id (run_ticks s [t1]).trace ∧
      (run_ticks s (t1 :: rest)).current_item_id_ = id ∧
      ∀ (s' : SchedulerCore) (mc : MediaController) (items next_items : List String)
        (hne : items ≠ []),
        (evaluate_items s' mc items next_items).current_item_id_ = items.getLast hne := by
  have hfirst := evaluate_items_single s t1.mc id t1.next_items
  have hq := run_ticks_single_quiet (evaluate_items s t1.mc [id] t1.next_items) id rest
    hfirst.1 hrest
  simp only [run_ticks, h1]
  refine ⟨?_, hq.1, by rw [hq.1], hq.2, ?_⟩
  · rw [hfirst.2]
    unfold invocations
    by_cases h : s.current_item_id_ = id
    · simp [h]
    · simp [h, List.count_append, item_events_count]
  · intro s' mc items next_items hne
    exact evaluate_items_nonempty_current s' mc items next_items hne

/-- C25 at a concrete input: three ticks on which the trigger returns the Monday item. -/
theorem single_item_debounce_witness :
    (∀ t ∈ [(⟨mc_ok, ["cam_09:00_1"], []⟩ : Tick), ⟨mc_ok, ["cam_09:00_1"], []⟩],
        t.current_items = ["cam_09:00_1"]) ∧
      invocations "cam_09:00_1"
        (run_ticks scheduler_two_items
          (⟨mc_ok, ["cam_09:00_1"], []⟩ ::
            [⟨mc_ok, ["cam_09:00_1"], []⟩, ⟨mc_ok, ["cam_09:00_1"], []⟩])).trace =
        invocations "cam_09:00_1"
          (run_ticks scheduler_two_items [⟨mc_ok, ["cam_09:00_1"], []⟩]).trace ∧
      invocations "cam_09:00_1"
        (run_ticks scheduler_two_items [⟨mc_ok, ["cam_09:00_1"], []⟩]).trace = 1 :=
  have hrest : ∀ t ∈ [(⟨mc_ok, ["cam_09:00_1"], []⟩ : Tick), ⟨mc_ok, ["cam_09:00_1"], []⟩],
      t.current_items = ["cam_09:00_1"] := by
    intro t ht
    simp at ht
    rw [ht]
  ⟨hrest,
    (single_item_debounce scheduler_two_items "cam_09:00_1" ⟨mc_ok, ["cam_09:00_1"], []⟩
      [⟨mc_ok, ["cam_09:00_1"], []⟩, ⟨mc_ok, ["cam_09:00_1"], []⟩] rfl hrest).2.2.1,
    by decide⟩

/-! ## C30: the fresh scheduler and the idle action -/

theorem item_events_head (pm : PlaylistManager) (mc : MediaController) (item_id : String) :
    ∃ evs, item_events pm mc item_id = Event.log_executing item_id :: evs := by
  unfold item_events
  split
  · split <;> exact ⟨_, rfl⟩
  · split
    · exact ⟨_, rfl⟩
    · split <;> exact ⟨_, rfl⟩

theorem fired_ids_subset (current : String) (items : List String) :
    ∀ id ∈ fired_ids current items, id ∈ items := by
  induction items generalizing current with
  | nil => simp [fired_ids]
  | cons a rest ih =>
    intro id hid
    unfold fired_ids at hid
    split at hid
    · rcases List.mem_cons.1 hid with rfl | h
      · exact List.mem_cons_self _ _
      · exact List.mem_cons_of_mem _ (ih a id h)
    · exact List.mem_cons_of_mem _ (ih current id hid)

theorem fired_ids_nil (current : String) (items : List String)
    (h : fired_ids current items = []) : items.getLast?.getD current = current := by
  induction items generalizing current with
  | nil => rfl
  | cons a rest ih =>
    unfold fired_ids at h
    split at h
    · simp at h
    · rename_i hc
      have hca : current = a := by simpa using hc
      have := ih current h
      cases rest with
      | nil => simp [hca]
      | cons b l => simpa [List.getLast?_cons_cons] using this

theorem evaluate_items_nonempty_events (s : SchedulerCore) (mc : MediaController)
    (items next_items : List String) (hne : items ≠ []) :
    evaluate_items s mc items next_items =
      { s with
        next_item_id_ := next_or_none next_items,
        current_item_id_ := items.getLast?.getD s.current_item_id_,
        trace := s.trace ++
          (fired_ids s.current_item_id_ items).flatMap
            (item_events s.playlist_manager_ mc) } := by
  unfold evaluate_items
  have he : items.isEmpty = false := by
    cases items with
    | nil => exact absurd rfl hne
    | cons a l => rfl
  simp only [he, Bool.false_eq_true, if_false]
  rw [execute_current_items_events]

/-- As long as nothing has been traced the current item id is empty, and the first traced
event is the entry into `execute_scheduled_item` for an id of some tick's list. -/
theorem evaluate_items_first_event (s : SchedulerCore) (t : Tick) (P : String → Prop)
    (hP : ∀ id ∈ t.current_items, P id)
    (hinv : (s.trace = [] ∧ s.current_item_id_ = "") ∨
      ∃ id evs, s.trace = Event.log_executing id :: evs ∧ P id) :
    ((evaluate_items s t.mc t.current_items t.next_items).trace = [] ∧
        (evaluate_items s t.mc t.current_items t.next_items).current_item_id_ = "") ∨
      ∃ id evs, (evaluate_items s t.mc t.current_items t.next_items).trace =
        Event.log_executing id :: evs ∧ P id := by
  rcases hinv with ⟨htr, hcur⟩ | ⟨id, evs, htr, hp⟩
  · by_cases hne : t.current_items = []
    · rw [hne]
      have hq := evaluate_items_empty_quiet s t.mc t.next_items (Or.inl hcur)
      exact Or.inl ⟨hq.2.trans htr, hq.1.trans hcur⟩
    · rw [evaluate_items_nonempty_events s t.mc _ _ hne]
      simp only [htr, List.nil_append]
      cases hf : fired_ids s.current_item_id_ t.current_items with
      | nil =>
        left
        refine ⟨by simp, ?_⟩
        rw [fired_ids_nil _ _ hf]
        exact hcur
      | cons f rest =>
        right
        obtain ⟨evs, he⟩ := item_events_head s.playlist_manager_ t.mc f
        refine ⟨f, evs ++ rest.flatMap (item_events s.playlist_manager_ t.mc), ?_, ?_⟩
        · simp [he]
        · exact hP f (fired_ids_subset _ _ f (by rw [hf]; exact List.mem_cons_self _ _))
  · right
    obtain ⟨cur, evs', he⟩ := evaluate_items_frame s t.mc t.current_items t.next_items
    rw [he]
    exact ⟨id, evs ++ evs', by simp [htr], hp⟩

theorem run_ticks_first_event (s : SchedulerCore) (ticks : List Tick) (P : String → Prop)
    (hP : ∀ t ∈ ticks, ∀ id ∈ t.current_items, P id)
    (hinv : (s.trace = [] ∧ s.current_item_id_ = "") ∨
      ∃ id evs, s.trace = Event.log_executing id :: evs ∧ P id) :
    ((run_ticks s ticks).trace = [] ∧ (run_ticks s ticks).current_item_id_ = "") ∨
      ∃ id evs, (run_ticks s ticks).trace = Event.log_executing id :: evs ∧ P id := by
  induction ticks generalizing s with
  | nil => exact hinv
  | cons t rest ih =>
    unfold run_ticks
    exact ih _ (fun u hu => hP u (List.mem_cons_of_mem _ hu))
      (evaluate_items_first_event s t P (hP t (List.mem_cons_self _ _)) hinv)

theorem run_ticks_empty_quiet (s : SchedulerCore) (ticks : List Tick)
    (hs : s.current_item_id_ = "") (hticks : ∀ t ∈ ticks, t.current_items = []) :
    (run_ticks s ticks).trace = s.trace ∧ (run_ticks s ticks).current_item_id_ = "" := by
  induction ticks generalizing s with
  | nil => exact ⟨rfl, hs⟩
  | cons t rest ih =>
    unfold run_ticks
    rw [hticks t (List.mem_cons_self _ _)]
    have hq := evaluate_items_empty_quiet s t.mc t.next_items (Or.inl hs)
    have := ih (evaluate_items s t.mc [] t.next_items) (hq.1.trans hs)
      (fun u hu => hticks u (List.mem_cons_of_mem _ hu))
    exact ⟨this.1.trans hq.2, this.2⟩

/-- C30. From the freshly constructed scheduler, any number of evaluated ticks with an empty
id list trace nothing (no item, no idle action) and leave `current_item_id_` empty. For any
sequence of evaluated ticks from that state, if `current_item_id_` ends as `"idle"`, the first
thing that happened was the entry into `execute_scheduled_item` for an id of some tick's
list. -/
theorem fresh_scheduler_quiet (pm : PlaylistManager) (tt : TimeTrigger) (steady_now : Int)
    (ticks : List Tick) :
    ((∀ t ∈ ticks, t.current_items = []) →
        (run_ticks (SchedulerCore.new pm tt steady_now) ticks).trace = [] ∧
        idle_calls (run_ticks (SchedulerCore.new pm tt steady_now) ticks).trace = 0 ∧
        (run_ticks (SchedulerCore.new pm tt steady_now) ticks).current_item_id_ = "") ∧
      ((run_ticks (SchedulerCore.new pm tt steady_now) ticks).current_item_id_ = "idle" →
        ∃ id evs, (run_ticks (SchedulerCore.new pm tt steady_now) ticks).trace =
            Event.log_executing id :: evs ∧
          ∃ t ∈ ticks, id ∈ t.current_items) := by
  constructor
  · intro hticks
    have h := run_ticks_empty_quiet (SchedulerCore.new pm tt steady_now) ticks rfl hticks
    have htr : (run_ticks (SchedulerCore.new pm tt steady_now) ticks).trace = [] := h.1
    exact ⟨htr, by rw [htr]; rfl, h.2⟩
  · intro hidle
    rcases run_ticks_first_event (SchedulerCore.new pm tt steady_now) ticks
      (fun id => ∃ t ∈ ticks, id ∈ t.current_items) (fun t ht id hid => ⟨t, ht, hid⟩)
      (Or.inl ⟨rfl, rfl⟩) with ⟨_, hcur⟩ | h
    · rw [hcur] at hidle
      exact absurd hidle (by decide)
    · exact h

/-- C30 at a concrete input: three empty ticks from the fresh scheduler. -/
theorem fresh_scheduler_quiet_witness :
    (∀ t ∈ [(⟨mc_ok, [], []⟩ : Tick), ⟨mc_ok, [], []⟩, ⟨mc_ok, [], []⟩],
        t.current_items = []) ∧
      (run_ticks (SchedulerCore.new pm_two_items tt_two_items 0)
        [⟨mc_ok, [], []⟩, ⟨mc_ok, [], []⟩, ⟨mc_ok, [], []⟩]).trace = [] ∧
      (run_ticks (SchedulerCore.new pm_two_items tt_two_items 0)
        [⟨mc_ok, [], []⟩, ⟨mc_ok, [], []⟩, ⟨mc_ok, [], []⟩]).current_item_id_ = "" :=
  have hticks : ∀ t ∈ [(⟨mc_ok, [], []⟩ : Tick), ⟨mc_ok, [], []⟩, ⟨mc_ok, [], []⟩],
      t.current_items = [] := by
    intro t ht
    simp at ht
    rw [ht]
  have h := (fresh_scheduler_quiet pm_two_items tt_two_items 0
    [⟨mc_ok, [], []⟩, ⟨mc_ok, [], []⟩, ⟨mc_ok, [], []⟩]).1 hticks
  ⟨hticks, h.1, h.2.2⟩

/-! ## C26: the lock guards of the time trigger -/

/-- C26 on the code: called with the mutex free, `update_schedule` alone acquires it and
returns; `get_current_items`, `get_next_items` and `get_upcoming_items` acquire the mutex and
then call `update_schedule`, whose lock guard acquires the held mutex: for every trigger and
every clock reading the three operations end in the error branch. -/
theorem time_trigger_relocks_mutex (tt : TimeTrigger) (now : Tm) (count : Int) :
    update_schedule_guarded tt false now = some (update_schedule tt now, false) ∧
      update_schedule_guarded tt true now = none ∧
      get_current_items_guarded tt false now = none ∧
      get_next_items_guarded tt false now = none ∧
      get_upcoming_items_guarded tt false now count = none := by
  refine ⟨rfl, rfl, rfl, rfl, rfl⟩

/-! ## C27: unloading a schedule file -/

/-- C27 on the code: `a.json` is loaded into an empty playlist manager and registers the item
`"Media Source_09:00_11"`; the playlist stored for the file holds its item with an empty id,
so `unload_schedule_file` erases the key `""`: afterwards `get_item` still returns the item
and `get_total_items` is still 1, although the playlist and the file entry are gone. -/
theorem unload_keeps_items :
    (pm_empty.load_schedule_file fs_present hash_len "a.json").2 = true ∧
      (pm_loaded.get_item "Media Source_09:00_11").isSome = true ∧
      pm_loaded.get_total_items = 1 ∧
      pm_loaded.playlists_.map (fun p => p.2.items.map ScheduledItem.id) = [[""]] ∧
      ((pm_loaded.unload_schedule_file "a.json").get_item "Media Source_09:00_11").isSome =
        true ∧
      (pm_loaded.unload_schedule_file "a.json").get_total_items = 1 ∧
      (pm_loaded.unload_schedule_file "a.json").playlists_ = [] ∧
      (pm_loaded.unload_schedule_file "a.json").file_to_playlist_id_ = [] := by
  decide

/-! ## C24: adding and removing schedule files -/

theorem erase_first_append_fresh (files : List ScheduleFile) (file : ScheduleFile)
    (h : file.path ∉ files.map ScheduleFile.path) :
    erase_first (fun f => decide (f.path = file.path)) (files ++ [file]) = files := by
  induction files with
  | nil => simp [erase_first]
  | cons x xs ih =>
    simp only [List.map_cons, List.mem_cons, not_or] at h
    have hx : ¬ x.path = file.path := fun e => h.1 e.symm
    rw [List.cons_append]
    unfold erase_first
    simp only [hx, decide_False, Bool.false_eq_true, if_false]
    rw [ih h.2]

theorem erase_first_sublist (p : ScheduleFile → Bool) (files : List ScheduleFile) :
    (erase_first p files).Sublist files := by
  induction files with
  | nil => exact List.Sublist.refl _
  | cons x xs ih =>
    unfold erase_first
    split
    · exact List.sublist_cons_self _ _
    · exact ih.cons₂ _

theorem replace_first_paths (file : ScheduleFile) (files : List ScheduleFile) :
    (replace_first (fun f => decide (f.path = file.path)) file files).map ScheduleFile.path =
      files.map ScheduleFile.path := by
  induction files with
  | nil => rfl
  | cons x xs ih =>
    unfold replace_first
    by_cases hx : x.path = file.path
    · simp [hx]
    · simp [hx, ih]

/-- C24 on the code: `add_schedule_file(f)` with a path that is not in the list pushes `f`
back and calls `save()` while it holds the mutex, whose lock guard acquires the held mutex:
the call ends in the error branch, and so do `remove_schedule_file` and
`update_schedule_file` for a path that is in the list. Only the branches that change nothing
return: `add_schedule_file` with a path already present, `remove_schedule_file` and
`update_schedule_file` with an absent path; they return the configuration as it was. -/
theorem schedule_files_relock_config_mutex (cfg : Config) (f : ScheduleFile) (path : String) :
    (f.path ∉ cfg.get_schedule_files.map ScheduleFile.path →
        cfg.add_schedule_file false f = none) ∧
      (f.path ∈ cfg.get_schedule_files.map ScheduleFile.path →
        cfg.add_schedule_file false f = some (cfg, false) ∧
        cfg.update_schedule_file false f = none) ∧
      (path ∈ cfg.get_schedule_files.map ScheduleFile.path →
        cfg.remove_schedule_file false path = none) ∧
      (path ∉ cfg.get_schedule_files.map ScheduleFile.path →
        cfg.remove_schedule_file false path = some (cfg, false)) ∧
      (f.path ∉ cfg.get_schedule_files.map ScheduleFile.path →
        cfg.update_schedule_file false f = some (cfg, false)) := by
  have hany : ∀ p : String,
      cfg.schedule_files_.any (fun existing => decide (existing.path = p)) = true ↔
        p ∈ cfg.schedule_files_.map ScheduleFile.path := by
    intro p
    simp only [List.any_eq_true, decide_eq_true_eq, List.mem_map]
  unfold Config.get_schedule_files
  refine ⟨?_, ?_, ?_, ?_, ?_⟩
  · intro hfresh
    unfold Config.add_schedule_file
    simp only [mutex_acquire, Bool.false_eq_true, if_false]
    rw [if_neg (fun h => hfresh ((hany _).1 h))]
    rfl
  · intro hin
    constructor
    · unfold Config.add_schedule_file
      simp only [mutex_acquire, Bool.false_eq_true, if_false]
      rw [if_pos ((hany _).2 hin)]
    · unfold Config.update_schedule_file
      simp only [mutex_acquire, Bool.false_eq_true, if_false]
      rw [if_pos ((hany _).2 hin)]
      rfl
  · intro hin
    unfold Config.remove_schedule_file
    simp only [mutex_acquire, Bool.false_eq_true, if_false]
    rw [if_pos ((hany _).2 hin)]
    rfl
  · intro hout
    unfold Config.remove_schedule_file
    simp only [mutex_acquire, Bool.false_eq_true, if_false]
    rw [if_neg (fun h => hout ((hany _).1 h))]
  · intro hout
    unfold Config.update_schedule_file
    simp only [mutex_acquire, Bool.false_eq_true, if_false]
    rw [if_neg (fun h => hout ((hany _).1 h))]

/-- C24 at the input of `ConfigTest.ScheduleFilesTest`: the test file is added to the default
configuration; and the file of the one-file configuration is removed. -/
theorem schedule_files_relock_config_mutex_witness :
    schedule_file_test.path ∉ cfg_default.get_schedule_files.map ScheduleFile.path ∧
      cfg_default.add_schedule_file false schedule_file_test = none ∧
      "a.json" ∈ cfg_one_file.get_schedule_files.map ScheduleFile.path ∧
      cfg_one_file.remove_schedule_file false "a.json" = none :=
  ⟨by decide,
    (schedule_files_relock_config_mutex cfg_default schedule_file_test "a.json").1 (by decide),
    by decide,
    (schedule_files_relock_config_mutex cfg_one_file schedule_file_test "a.json").2.2.1
      (by decide)⟩

/-! ## Lemmas on digits and on parsing a time -/

theorem put_width2_digits (k : Nat) (hk : k < 60) :
    put_width2 (k : Int) = [digit_char (k / 10), digit_char (k % 10)] := by
  revert k
  decide

theorem isdigit_facts (c : Char) (h : isdigit c = true) :
    isspace c = false ∧ c ≠ ':' ∧ c ≠ '-' ∧ c ≠ '+' ∧ 48 ≤ c.toNat ∧ c.toNat ≤ 57 := by
  have hb : 48 ≤ c.toNat ∧ c.toNat ≤ 57 := by
    unfold isdigit at h
    simpa using h
  refine ⟨?_, ?_, ?_, ?_, hb.1, hb.2⟩
  · unfold isspace
    have h1 : ¬ c.toNat = 32 := by omega
    have h2 : ¬ c.toNat ≤ 13 := by omega
    simp [h1, h2]
  · rintro rfl
    exact absurd h (by decide)
  · rintro rfl
    exact absurd h (by decide)
  · rintro rfl
    exact absurd h (by decide)

theorem stoi_one_digit (a : Char) (ha : isdigit a = true) :
    stoi [a] = some ((a.toNat - 48 : Nat) : Int) := by
  obtain ⟨hs, _, hm, hp, h1, h2⟩ := isdigit_facts a ha
  unfold stoi
  simp only [List.dropWhile, hs, hm, hp, decide_False, or_self, if_false, List.takeWhile, ha,
    List.isEmpty_cons, Bool.false_eq_true, digits_value, List.foldl]
  rw [if_neg (by omega)]
  simp

theorem stoi_two_digits (a b : Char) (ha : isdigit a = true) (hb : isdigit b = true) :
    stoi [a, b] = some (((a.toNat - 48) * 10 + (b.toNat - 48) : Nat) : Int) := by
  obtain ⟨hs, _, hm, hp, h1, h2⟩ := isdigit_facts a ha
  obtain ⟨_, _, _, _, h3, h4⟩ := isdigit_facts b hb
  unfold stoi
  simp only [List.dropWhile, hs, hm, hp, decide_False, or_self, if_false, List.takeWhile, ha, hb,
    List.isEmpty_cons, Bool.false_eq_true, digits_value, List.foldl]
  rw [if_neg (by omega)]
  simp

/-- Parsing `H:MM` with decimal digits. -/
theorem time_string_to_minutes_h_mm (h m1 m2 : Char) (hh : isdigit h = true)
    (h1 : isdigit m1 = true) (h2 : isdigit m2 = true)
    (hmin : (m1.toNat - 48) * 10 + (m2.toNat - 48) ≤ 59) :
    time_string_to_minutes (String.mk [h, ':', m1, m2]) =
      ((h.toNat - 48 : Nat) : Int) * 60 +
        (((m1.toNat - 48) * 10 + (m2.toNat - 48) : Nat) : Int) := by
  obtain ⟨_, hc, _, _, hl, hu⟩ := isdigit_facts h hh
  unfold time_string_to_minutes
  simp only [find_char, hc, if_false, if_true, Option.map_some', List.take, List.drop,
    Nat.zero_add, stoi_one_digit h hh, stoi_two_digits m1 m2 h1 h2]
  rw [if_neg (by omega)]

/-- Parsing `HH:MM` with decimal digits. -/
theorem time_string_to_minutes_hh_mm (a b m1 m2 : Char) (ha : isdigit a = true)
    (hb : isdigit b = true) (h1 : isdigit m1 = true) (h2 : isdigit m2 = true)
    (hhour : (a.toNat - 48) * 10 + (b.toNat - 48) ≤ 23)
    (hmin : (m1.toNat - 48) * 10 + (m2.toNat - 48) ≤ 59) :
    time_string_to_minutes (String.mk [a, b, ':', m1, m2]) =
      (((a.toNat - 48) * 10 + (b.toNat - 48) : Nat) : Int) * 60 +
        (((m1.toNat - 48) * 10 + (m2.toNat - 48) : Nat) : Int) := by
  obtain ⟨_, hca, _, _, _, _⟩ := isdigit_facts a ha
  obtain ⟨_, hcb, _, _, _, _⟩ := isdigit_facts b hb
  unfold time_string_to_minutes
  simp only [find_char, hca, hcb, if_false, if_true, Option.map_some', List.take, List.drop,
    Nat.zero_add, stoi_two_digits a b ha hb, stoi_two_digits m1 m2 h1 h2]
  rw [if_neg (by omega)]

theorem digit_char_facts (d : Nat) (hd : d < 10) :
    isdigit (digit_char d) = true ∧ (digit_char d).toNat - 48 = d := by
  revert d
  decide

/-- The label of a minute of the day, digit by digit. -/
theorem minutes_to_time_string_digits (k : Nat) (hk : k < 1440) :
    minutes_to_time_string (k : Int) =
      String.mk [digit_char (k / 60 / 10), digit_char (k / 60 % 10), ':',
        digit_char (k % 60 / 10), digit_char (k % 60 % 10)] := by
  unfold minutes_to_time_string
  rw [if_neg (by omega)]
  simp only
  rw [Int.tdiv_eq_ediv (by omega) (by decide), Int.tmod_eq_emod (by omega) (by decide)]
  have hq : (k : Int) / 60 = ((k / 60 : Nat) : Int) := by norm_cast
  have hr : (k : Int) % 60 = ((k % 60 : Nat) : Int) := by norm_cast
  rw [hq, hr, put_width2_digits (k / 60) (by omega), put_width2_digits (k % 60) (by omega)]
  rfl

theorem time_string_to_minutes_range (time_str : String) :
    time_string_to_minutes time_str = -1 ∨
      (0 ≤ time_string_to_minutes time_str ∧ time_string_to_minutes time_str < 1440) := by
  unfold time_string_to_minutes
  split
  · exact Or.inl rfl
  · simp only
    split
    · split
      · exact Or.inl rfl
      · right
        omega
    · exact Or.inl rfl

/-! ## C28: time strings -/

/-- C28. For every minute `m` with `0 ≤ m < 1440`, `minutes_to_time_string(m)` consists of the
five characters `HH:MM`, zero-padded, and `time_string_to_minutes` maps it back to `m`. For
every string, `time_string_to_minutes` returns `-1` or a value in `[0, 1440)`; it returns `-1`
when the string has no `':'`, and when the parsed hour is outside `0..23` or the parsed minute
outside `0..59`. -/
theorem time_string_round_trip (m : Int) (h0 : 0 ≤ m) (h1 : m < 1440) (time_str : String) :
    (minutes_to_time_string m).data =
        [digit_char (m.toNat / 60 / 10), digit_char (m.toNat / 60 % 10), ':',
          digit_char (m.toNat % 60 / 10), digit_char (m.toNat % 60 % 10)] ∧
      time_string_to_minutes (minutes_to_time_string m) = m ∧
      (time_string_to_minutes time_str = -1 ∨
        (0 ≤ time_string_to_minutes time_str ∧ time_string_to_minutes time_str < 1440)) ∧
      (find_char ':' time_str.data = none → time_string_to_minutes time_str = -1) ∧
      (∀ colon_pos hour minute, find_char ':' time_str.data = some colon_pos →
        stoi (time_str.data.take colon_pos) = some hour →
        stoi (time_str.data.drop (colon_pos + 1)) = some minute →
        (hour < 0 ∨ hour > 23 ∨ minute < 0 ∨ minute > 59) →
        time_string_to_minutes time_str = -1) := by
  obtain ⟨k, rfl⟩ : ∃ k : Nat, m = (k : Int) := ⟨m.toNat, by omega⟩
  have hk : k < 1440 := by omega
  simp only [Int.toNat_ofNat]
  have hd := minutes_to_time_string_digits k hk
  refine ⟨by rw [hd], ?_, time_string_to_minutes_range time_str, ?_, ?_⟩
  · rw [hd]
    obtain ⟨ha, va⟩ := digit_char_facts (k / 60 / 10) (by omega)
    obtain ⟨hb, vb⟩ := digit_char_facts (k / 60 % 10) (by omega)
    obtain ⟨hc, vc⟩ := digit_char_facts (k % 60 / 10) (by omega)
    obtain ⟨he, ve⟩ := digit_char_facts (k % 60 % 10) (by omega)
    rw [time_string_to_minutes_hh_mm _ _ _ _ ha hb hc he (by omega) (by omega), va, vb, vc, ve]
    omega
  · intro hnone
    unfold time_string_to_minutes
    rw [hnone]
  · intro colon_pos hour minute hpos hh hm hout
    unfold time_string_to_minutes
    rw [hpos]
    simp only [hh, hm]
    rw [if_pos hout]

/-- C28 at a concrete minute: 545 is `09:05`. -/
theorem time_string_round_trip_witness :
    (0 : Int) ≤ 545 ∧ (545 : Int) < 1440 ∧ minutes_to_time_string 545 = "09:05" ∧
      time_string_to_minutes (minutes_to_time_string 545) = 545 :=
  ⟨by decide, by decide, by decide,
    (time_string_round_trip 545 (by decide) (by decide) "").2.1⟩

/-! ## C23: the label of the next trigger -/

/-- The label of a slot with `0 ≤ hour ≤ 23` and `0 ≤ minute ≤ 59` is the zero-padded
`HH:MM`. -/
theorem to_string_digits (h mi : Nat) (ids : List String) (hh : h < 24) (hm : mi < 60) :
    TimeSlot.to_string { hour := (h : Int), minute := (mi : Int), item_ids := ids } =
      String.mk [digit_char (h / 10), digit_char (h % 10), ':', digit_char (mi / 10),
        digit_char (mi % 10)] := by
  unfold TimeSlot.to_string
  simp only
  rw [put_width2_digits h (by omega), put_width2_digits mi hm]
  rfl

/-- C23. The call `get_next_trigger_time` returns `"No schedule"` for an empty schedule;
otherwise the label of the first slot whose `to_minutes` is greater than the current minute
(on an ascending schedule the earliest such slot), and when there is none the label of the
first slot of the schedule followed by `" (tomorrow)"`. The label of a slot with
`0 ≤ hour ≤ 23` and `0 ≤ minute ≤ 59` is the zero-padded five-character `HH:MM`. -/
theorem next_trigger_label (tt : TimeTrigger) (now : Tm)
    (hasc : tt.schedule_.Pairwise (fun a b => a.to_minutes < b.to_minutes)) :
    (tt.schedule_ = [] → get_next_trigger_time tt now = "No schedule") ∧
      (∀ first rest, later_slots (get_current_minutes now) tt.schedule_ = first :: rest →
        get_next_trigger_time tt now = first.to_string ∧
        get_current_minutes now < first.to_minutes ∧
        ∀ slot ∈ tt.schedule_, get_current_minutes now < slot.to_minutes →
          first.to_minutes ≤ slot.to_minutes) ∧
      (∀ first rest, tt.schedule_ = first :: rest →
        later_slots (get_current_minutes now) tt.schedule_ = [] →
        get_next_trigger_time tt now = first.to_string ++ " (tomorrow)") ∧
      (∀ slot : TimeSlot, 0 ≤ slot.hour → slot.hour ≤ 23 → 0 ≤ slot.minute →
        slot.minute ≤ 59 →
        slot.to_string =
          String.mk [digit_char (slot.hour.toNat / 10), digit_char (slot.hour.toNat % 10), ':',
            digit_char (slot.minute.toNat / 10), digit_char (slot.minute.toNat % 10)] ∧
        slot.to_string = minutes_to_time_string slot.to_minutes) := by
  have hfind : tt.schedule_.find?
      (fun slot => decide (slot.to_minutes > get_current_minutes now)) =
      (later_slots (get_current_minutes now) tt.schedule_).head? := by
    unfold later_slots
    exact (List.filter_head? _ _).symm
  refine ⟨?_, ?_, ?_, ?_⟩
  · intro hnil
    unfold get_next_trigger_time
    simp [hnil]
  · intro first rest hlater
    have hmem : first ∈ later_slots (get_current_minutes now) tt.schedule_ := by
      rw [hlater]
      exact List.mem_cons_self _ _
    have hfirst := (mem_later_slots _ _ first).1 hmem
    have hne : tt.schedule_.isEmpty = false := by
      cases hs : tt.schedule_ with
      | nil => rw [hs] at hfirst; simp at hfirst
      | cons a l => rfl
    refine ⟨?_, hfirst.2, ?_⟩
    · unfold get_next_trigger_time
      simp only [hne, Bool.false_eq_true, if_false, hfind, hlater, List.head?_cons]
    · intro slot hslot hlt
      have hsorted : (later_slots (get_current_minutes now) tt.schedule_).Pairwise
          (fun a b => a.to_minutes < b.to_minutes) := by
        unfold later_slots
        exact hasc.filter _
      have hin := (mem_later_slots _ _ slot).2 ⟨hslot, hlt⟩
      rw [hlater] at hin hsorted
      rcases List.mem_cons.1 hin with rfl | hin
      · exact le_refl _
      · exact le_of_lt ((List.pairwise_cons.1 hsorted).1 slot hin)
  · intro first rest hs hlater
    rw [hlater, hs] at hfind
    unfold get_next_trigger_time
    simp only [hs, List.isEmpty_cons, Bool.false_eq_true, if_false, hfind, List.head?_nil]
  · intro slot h0 h23 m0 m59
    obtain ⟨hour, minute, ids⟩ := slot
    simp only at h0 h23 m0 m59
    obtain ⟨h, rfl⟩ : ∃ h : Nat, hour = (h : Int) := ⟨hour.toNat, by omega⟩
    obtain ⟨mi, rfl⟩ : ∃ mi : Nat, minute = (mi : Int) := ⟨minute.toNat, by omega⟩
    have hh : h < 24 := by omega
    have hm : mi < 60 := by omega
    simp only [Int.toNat_ofNat]
    refine ⟨to_string_digits h mi ids hh hm, ?_⟩
    rw [to_string_digits h mi ids hh hm]
    have hcast : TimeSlot.to_minutes { hour := (h : Int), minute := (mi : Int), item_ids := ids } =
        ((h * 60 + mi : Nat) : Int) := by
      unfold TimeSlot.to_minutes
      push_cast
      rfl
    rw [hcast, minutes_to_time_string_digits (h * 60 + mi) (by omega)]
    have e1 : (h * 60 + mi) / 60 = h := by omega
    have e2 : (h * 60 + mi) % 60 = mi := by omega
    rw [e1, e2]

/-- C23 at the schedule of the two 09:00 items: `09:00` before the slot, `09:00 (tomorrow)`
from the slot's minute on. -/
theorem next_trigger_label_witness :
    (rebuild_schedule tt_two_items monday_0900).schedule_.Pairwise
        (fun a b => a.to_minutes < b.to_minutes) ∧
      get_next_trigger_time (rebuild_schedule tt_two_items monday_0900) monday_0859 =
        "09:00" ∧
      get_next_trigger_time (rebuild_schedule tt_two_items monday_0900) monday_0900 =
        "09:00 (tomorrow)" :=
  have h := next_trigger_label (rebuild_schedule tt_two_items monday_0900) monday_0859
    (by decide)
  ⟨by decide,
    ((h.2.1 { hour := 9, minute := 0, item_ids := ["cam_09:00_1", "deck_09:00_2"] } []
      (by decide)).1).trans (by decide),
    by decide⟩

/-! ## Lemmas on the time pattern -/

theorem full_match_seq (r1 r2 : Regex) (s : List Char) :
    (Regex.seq r1 r2).full_match s = true ↔
      ∃ a b, s = a ++ b ∧ r1.full_match a = true ∧ r2.full_match b = true := by
  simp only [Regex.full_match, List.any_eq_true, List.mem_range, Bool.and_eq_true]
  constructor
  · rintro ⟨i, _, h1, h2⟩
    exact ⟨s.take i, s.drop i, (List.take_append_drop i s).symm, h1, h2⟩
  · rintro ⟨a, b, rfl, h1, h2⟩
    refine ⟨a.length, by simp; omega, ?_, ?_⟩
    · simpa using h1
    · simpa using h2

theorem full_match_range (lo hi : Char) (s : List Char) :
    (Regex.range lo hi).full_match s = true ↔
      ∃ c, s = [c] ∧ lo.toNat ≤ c.toNat ∧ c.toNat ≤ hi.toNat := by
  match s with
  | [] => simp [Regex.full_match]
  | [c] => simp [Regex.full_match]
  | _ :: _ :: _ => simp [Regex.full_match]

theorem full_match_chr (c : Char) (s : List Char) :
    (Regex.chr c).full_match s = true ↔ s = [c] := by
  simp [Regex.full_match]

theorem full_match_alt (r1 r2 : Regex) (s : List Char) :
    (Regex.alt r1 r2).full_match s = true ↔
      r1.full_match s = true ∨ r2.full_match s = true := by
  simp [Regex.full_match]

theorem full_match_opt (r : Regex) (s : List Char) :
    (Regex.opt r).full_match s = true ↔ s = [] ∨ r.full_match s = true := by
  simp [Regex.full_match]

/-- The pattern of `validate_item` matches exactly the strings `H:MM` and `HH:MM` with an
hour `0..23` and a minute `00..59`. -/
theorem time_regex_iff (s : List Char) : time_regex.full_match s = true ↔ is_hh_mm s := by
  have h0 : ('0' : Char).toNat = 48 := rfl
  have h1 : ('1' : Char).toNat = 49 := rfl
  have h3 : ('3' : Char).toNat = 51 := rfl
  have h5 : ('5' : Char).toNat = 53 := rfl
  have h9 : ('9' : Char).toNat = 57 := rfl
  unfold time_regex is_hh_mm
  simp only [full_match_seq, full_match_alt, full_match_opt, full_match_range, full_match_chr,
    h0, h1, h3, h5, h9]
  constructor
  · rintro ⟨a, b, rfl, hhour, ⟨b1, b2, rfl, rfl, ⟨b3, b4, rfl, ⟨e, rfl, he⟩, ⟨f, rfl, hf⟩⟩⟩⟩
    rcases hhour with ⟨a1, a2, rfl, (rfl | ⟨c, rfl, hc⟩), ⟨d, rfl, hd⟩⟩ |
      ⟨a1, a2, rfl, rfl, ⟨d, rfl, hd⟩⟩
    · exact Or.inl ⟨d, e, f, rfl, hd, he, hf⟩
    · exact Or.inr ⟨c, d, e, f, rfl, Or.inl ⟨hc, hd⟩, he, hf⟩
    · exact Or.inr ⟨'2', d, e, f, rfl, Or.inr ⟨rfl, hd⟩, he, hf⟩
  · rintro (⟨h, m1, m2, rfl, hh, hm1, hm2⟩ | ⟨a, b, m1, m2, rfl, hab, hm1, hm2⟩)
    · exact ⟨[h], [':', m1, m2], rfl,
        Or.inl ⟨[], [h], rfl, Or.inl rfl, ⟨h, rfl, hh⟩⟩,
        ⟨[':'], [m1, m2], rfl, rfl, ⟨[m1], [m2], rfl, ⟨m1, rfl, hm1⟩, ⟨m2, rfl, hm2⟩⟩⟩⟩
    · refine ⟨[a, b], [':', m1, m2], rfl, ?_,
        ⟨[':'], [m1, m2], rfl, rfl, ⟨[m1], [m2], rfl, ⟨m1, rfl, hm1⟩, ⟨m2, rfl, hm2⟩⟩⟩⟩
      rcases hab with ⟨ha, hb⟩ | ⟨rfl, hb⟩
      · exact Or.inl ⟨[a], [b], rfl, Or.inr ⟨a, rfl, ha⟩, ⟨b, rfl, hb⟩⟩
      · exact Or.inr ⟨['2'], [b], rfl, rfl, ⟨b, rfl, hb⟩⟩

theorem isdigit_of_bounds (c : Char) (h : 48 ≤ c.toNat ∧ c.toNat ≤ 57) : isdigit c = true := by
  unfold isdigit
  simpa using h

/-- A string of the form `H:MM` or `HH:MM` parses to sixty times its hour plus its minute. -/
theorem is_hh_mm_parse (t : String) (ht : is_hh_mm t.data) :
    (∃ h m1 m2, t.data = [h, ':', m1, m2] ∧ (48 ≤ h.toNat ∧ h.toNat ≤ 57) ∧
        (48 ≤ m1.toNat ∧ m1.toNat ≤ 53) ∧ (48 ≤ m2.toNat ∧ m2.toNat ≤ 57) ∧
        time_string_to_minutes t =
          60 * ((h.toNat - 48 : Nat) : Int) +
            (((m1.toNat - 48) * 10 + (m2.toNat - 48) : Nat) : Int)) ∨
      ∃ a b m1 m2, t.data = [a, b, ':', m1, m2] ∧ (48 ≤ a.toNat ∧ a.toNat ≤ 50) ∧
        (48 ≤ b.toNat ∧ b.toNat ≤ 57) ∧ (a.toNat - 48) * 10 + (b.toNat - 48) ≤ 23 ∧
        (48 ≤ m1.toNat ∧ m1.toNat ≤ 53) ∧ (48 ≤ m2.toNat ∧ m2.toNat ≤ 57) ∧
        time_string_to_minutes t =
          60 * (((a.toNat - 48) * 10 + (b.toNat - 48) : Nat) : Int) +
            (((m1.toNat - 48) * 10 + (m2.toNat - 48) : Nat) : Int) := by
  have hmk : ∀ l, t.data = l → t = String.mk l := by
    intro l hl
    cases t
    simp only at hl
    rw [hl]
  rcases ht with ⟨h, m1, m2, hs, hh, hm1, hm2⟩ | ⟨a, b, m1, m2, hs, hab, hm1, hm2⟩
  · left
    refine ⟨h, m1, m2, hs, hh, hm1, hm2, ?_⟩
    rw [hmk _ hs, time_string_to_minutes_h_mm h m1 m2 (isdigit_of_bounds h hh)
      (isdigit_of_bounds m1 ⟨hm1.1, by omega⟩) (isdigit_of_bounds m2 hm2) (by omega)]
    ring
  · right
    have h2 : ('2' : Char).toNat = 50 := rfl
    have hb : (48 ≤ a.toNat ∧ a.toNat ≤ 50) ∧ (48 ≤ b.toNat ∧ b.toNat ≤ 57) ∧
        (a.toNat - 48) * 10 + (b.toNat - 48) ≤ 23 := by
      rcases hab with ⟨ha, hb⟩ | ⟨rfl, hb⟩
      · exact ⟨⟨ha.1, by omega⟩, hb, by omega⟩
      · rw [h2]
        exact ⟨⟨by omega, by omega⟩, ⟨hb.1, by omega⟩, by omega⟩
    refine ⟨a, b, m1, m2, hs, hb.1, hb.2.1, hb.2.2, hm1, hm2, ?_⟩
    rw [hmk _ hs, time_string_to_minutes_hh_mm a b m1 m2
      (isdigit_of_bounds a ⟨hb.1.1, by omega⟩) (isdigit_of_bounds b hb.2.1)
      (isdigit_of_bounds m1 ⟨hm1.1, by omega⟩) (isdigit_of_bounds m2 hm2) hb.2.2 (by omega)]
    ring

/-- What `validate_item` decides, whatever the file system answers. -/
theorem validate_item_eq (file_exists : String → Bool) (item : ScheduledItem) :
    PlaylistManager.validate_item file_exists item =
      (decide (item.name ≠ "") && decide (item.time ≠ "") && decide (item.source ≠ "") &&
        time_regex.full_match item.time.data) := by
  unfold PlaylistManager.validate_item
  by_cases hn : item.name = "" <;> by_cases ht : item.time = "" <;>
    by_cases hs : item.source = "" <;>
    cases hr : time_regex.full_match item.time.data <;>
    simp [hn, ht, hs]

/-! ## C22: validation of an item -/

/-- C29. For every item accepted by `validate_item`, `time_string_to_minutes(item.time)` is not
`-1`, lies in `[0, 1440)` and equals `60 * HH + MM` for the hour digits (one or two) and the
two minute digits of the time; hence in every time trigger whose playlist manager holds the
item, on every day contained in the item's days, the schedule built by `rebuild_schedule` has a
slot at that minute holding the item's id. -/
theorem validated_item_is_indexed (file_exists : String → Bool) (item : ScheduledItem)
    (hv : PlaylistManager.validate_item file_exists item = true) :
    time_string_to_minutes item.time ≠ -1 ∧
      (0 ≤ time_string_to_minutes item.time ∧ time_string_to_minutes item.time < 1440) ∧
      ((∃ h m1 m2, item.time.data = [h, ':', m1, m2] ∧ isdigit h = true ∧
          isdigit m1 = true ∧ isdigit m2 = true ∧
          time_string_to_minutes item.time =
            60 * ((h.toNat - 48 : Nat) : Int) +
              (((m1.toNat - 48) * 10 + (m2.toNat - 48) : Nat) : Int)) ∨
        ∃ a b m1 m2, item.time.data = [a, b, ':', m1, m2] ∧ isdigit a = true ∧
          isdigit b = true ∧ isdigit m1 = true ∧ isdigit m2 = true ∧
          time_string_to_minutes item.time =
            60 * (((a.toNat - 48) * 10 + (b.toNat - 48) : Nat) : Int) +
              (((m1.toNat - 48) * 10 + (m2.toNat - 48) : Nat) : Int)) ∧
      ∀ (tt : TimeTrigger) (pm : PlaylistManager) (now : Tm),
        tt.playlist_manager_ = some pm → item ∈ pm.items_.map Prod.snd →
        get_current_day now ∈ item.days →
        ∃ slot ∈ (rebuild_schedule tt now).schedule_,
          item.id ∈ slot.item_ids ∧ slot.to_minutes = time_string_to_minutes item.time := by
  rw [validate_item_eq] at hv
  simp only [Bool.and_eq_true, decide_eq_true_eq] at hv
  have hshape := (time_regex_iff _).1 hv.2
  have hparse := is_hh_mm_parse item.time hshape
  have hne : time_string_to_minutes item.time ≠ -1 := by
    rcases hparse with ⟨h, m1, m2, _, _, _, _, he⟩ | ⟨a, b, m1, m2, _, _, _, _, _, _, he⟩ <;>
      omega
  have hrange : 0 ≤ time_string_to_minutes item.time ∧
      time_string_to_minutes item.time < 1440 := by
    rcases time_string_to_minutes_range item.time with h | h
    · exact absurd h hne
    · exact h
  refine ⟨hne, hrange, ?_, ?_⟩
  · rcases hparse with ⟨h, m1, m2, hs, hh, hm1, hm2, he⟩ |
      ⟨a, b, m1, m2, hs, ha, hb, _, hm1, hm2, he⟩
    · exact Or.inl ⟨h, m1, m2, hs, isdigit_of_bounds h hh,
        isdigit_of_bounds m1 ⟨hm1.1, by omega⟩, isdigit_of_bounds m2 hm2, he⟩
    · exact Or.inr ⟨a, b, m1, m2, hs, isdigit_of_bounds a ⟨ha.1, by omega⟩,
        isdigit_of_bounds b hb, isdigit_of_bounds m1 ⟨hm1.1, by omega⟩,
        isdigit_of_bounds m2 hm2, he⟩
  · intro tt pm now hpm hitem hd
    have hmem : item ∈ pm.get_items_for_day (get_current_day now) := by
      unfold PlaylistManager.get_items_for_day
      rw [List.mem_filter]
      exact ⟨hitem, by simpa using hd⟩
    obtain ⟨xs, hk, hx⟩ := (group_by_time_mem_iff _ (time_string_to_minutes item.time)
      item.id).2 ⟨item, hmem, rfl, hrange.1, hrange.2, rfl⟩
    refine ⟨_, (mem_rebuild_schedule tt pm now hpm _).2 ⟨_, xs, hk, rfl⟩, hx, ?_⟩
    rw [to_minutes_build]

/-- C29 at a concrete input: the 09:00 item on a Monday. -/
theorem validated_item_is_indexed_witness :
    PlaylistManager.validate_item (fun _ => false) item_monday_0900 = true ∧
      time_string_to_minutes item_monday_0900.time = 540 ∧
      ∃ slot ∈ (rebuild_schedule tt_one_item monday_0900).schedule_,
        item_monday_0900.id ∈ slot.item_ids ∧ slot.to_minutes = 540 := by
  have h := validated_item_is_indexed (fun _ => false) item_monday_0900 (by decide)
  have ht : time_string_to_minutes item_monday_0900.time = 540 := by decide
  refine ⟨by decide, ht, ?_⟩
  obtain ⟨slot, hs, hi, hm⟩ := h.2.2.2 tt_one_item pm_one_item monday_0900 rfl
    (by decide) (by decide)
  exact ⟨slot, hs, hi, by rw [hm, ht]⟩

end ObsPlayout
